import Mathlib

/-!
Shallow embedding of the OpenOCD CC26xx flash driver
(`src/flash/nor/cc26xx.c`) and proofs of the specified properties.

The driver talks to an external debug target through fallible primitives
(`target_read_buffer`, `target_write_buffer`, `target_alloc_working_area`,
`target_start_algorithm`, ...).  Those primitives are modelled by oracles:
functions supplying the result of the n-th call of each kind.  The driver
code itself (control flow, state updates, the ping-pong buffer protocol,
the sector bookkeeping) is translated statement by statement.
-/

namespace Cc26xx

/-! ## Constants

`FLASH_TIMEOUT` and the heartbeat threshold are from `cc26xx.c` itself.
The remaining numeric constants live in headers that are not part of the
two provided source files (`cc26xx.h`, OpenOCD core headers); they are
modelled from the spec.  Only their distinctness (and, for the sector
lengths and the sector-count cap, the values named by the spec scenarios)
matters to any theorem below. -/

def FLASH_TIMEOUT : Int := 8000

/-- Modelled from the spec: OpenOCD error codes (core headers absent from
src).  Success is 0; the distinct negative values of the failure codes are
conventional.  Behaviour only depends on `ERROR_OK` being distinct from
the failure codes. -/
def ERROR_OK : Int := 0

/-- Modelled from the spec: generic fatal failure code (core headers
absent from src). -/
def ERROR_FAIL : Int := -4

/-- Modelled from the spec: "target not halted" precondition-violation
code (core headers absent from src). -/
def ERROR_TARGET_NOT_HALTED : Int := -304

/-- Modelled from the spec: "resource unavailable" code returned when the
working area cannot be obtained at the required address (core headers
absent from src). -/
def ERROR_TARGET_RESOURCE_NOT_AVAILABLE : Int := -308

/-- Modelled from the spec: the "buffer full" status sentinel written by
the host and cleared by the target helper algorithm (`cc26xx.h` absent
from src).  Only its distinctness from `CC26XX_BUFFER_EMPTY` matters. -/
def CC26XX_BUFFER_FULL : Nat := 0xcafebabe

/-- Modelled from the spec: the "buffer empty" status sentinel (`cc26xx.h`
absent from src). -/
def CC26XX_BUFFER_EMPTY : Nat := 0x00000000

/-- Modelled from the spec: mask selecting the family-identifying bits of
the ICEPick identity word (`cc26xx.h` absent from src). -/
def ICEPICK_ID_MASK : Nat := 0x0fffffff

/-- Modelled from the spec: mask selecting the silicon-revision bits of
the ICEPick identity word (`cc26xx.h` absent from src). -/
def ICEPICK_REV_MASK : Nat := 0xf0000000

/-- Modelled from the spec: CC26x0 family identity code (`cc26xx.h`
absent from src). -/
def CC26X0_ICEPICK_ID : Nat := 0x0b99a02f

/-- Modelled from the spec: CC26x1 family identity code (`cc26xx.h`
absent from src). -/
def CC26X1_ICEPICK_ID : Nat := 0x0b9bd02f

/-- Modelled from the spec: CC13x0 family identity code (`cc26xx.h`
absent from src). -/
def CC13X0_ICEPICK_ID : Nat := 0x0b9be02f

/-- Modelled from the spec: shared CC13x2/CC26x2 ("agama") family identity
code (`cc26xx.h` absent from src). -/
def CC13X2_CC26X2_ICEPICK_ID : Nat := 0x0bb4102f

/-- Modelled from the spec: bit of the user-configuration word that
distinguishes the CC13x2 sibling from CC26x2 (`cc26xx.h` absent from
src). -/
def USER_ID_CC13_MASK : Nat := 0x00800000

/-- Modelled from the spec: device-type tags (`cc26xx.h` absent from
src); only distinctness matters. -/
def CC26XX_NO_TYPE : Nat := 0

/-- Modelled from the spec: device-type tag for CC26x0. -/
def CC26X0_TYPE : Nat := 1

/-- Modelled from the spec: device-type tag for CC26x1. -/
def CC26X1_TYPE : Nat := 2

/-- Modelled from the spec: device-type tag for CC13x0. -/
def CC13X0_TYPE : Nat := 3

/-- Modelled from the spec: device-type tag for CC13x2. -/
def CC13X2_TYPE : Nat := 4

/-- Modelled from the spec: device-type tag for CC26x2. -/
def CC26X2_TYPE : Nat := 5

/-- Modelled from the spec: fixed sector length of the chameleon family,
one of the "two possible values" of the design (`cc26xx.h` absent from
src). -/
def CC26XX_CHAMELEON_SECTOR_LENGTH : Nat := 0x1000

/-- Modelled from the spec: fixed sector length of the agama family
(`cc26xx.h` absent from src). -/
def CC26XX_AGAMA_SECTOR_LENGTH : Nat := 0x2000

/-- Modelled from the spec: hardware-imposed maximum sector count capping
the flash-size register's low byte; the spec scenario (flash-size byte
0x80 yields a 128-entry table) pins it at no less than 128 (`cc26xx.h`
absent from src). -/
def CC26XX_MAX_SECTOR_COUNT : Nat := 128

/-- Modelled from the spec: fixed base address of the main flash bank
(`cc26xx.h` absent from src). -/
def CC26XX_FLASH_BASE_ADDR : Nat := 0x00000000

/-- Modelled from the spec: hard-coded target RAM address the helper
algorithm was linked against (`cc26xx.h` absent from src). -/
def CC26XX_ALGO_BASE_ADDRESS : Nat := 0x20000000

/-- Modelled from the spec: command code "erase all" (`cc26xx.h` absent
from src). -/
def CC26XX_CMD_ERASE_ALL : Nat := 1

/-- Modelled from the spec: command code "program" (`cc26xx.h` absent
from src). -/
def CC26XX_CMD_PROGRAM : Nat := 2

/-- Modelled from the spec: command code "erase and program" (`cc26xx.h`
absent from src). -/
def CC26XX_CMD_ERASE_AND_PROGRAM : Nat := 3

/-- 2^32, the modulus of the driver's `uint32_t` arithmetic. -/
def UINT32_MOD : Nat := 4294967296

/-! ## Device identity resolution (pure functions from `cc26xx.c`) -/

/-- `cc26xx_device_type` from `cc26xx.c`: switch on the masked identity
word; the `CC13X2_CC26X2_ICEPICK_ID` case and the `default` case share
one branch, whose subtype is chosen by `USER_ID_CC13_MASK`. -/
def cc26xx_device_type (icepick_id user_id : Nat) : Nat :=
  let m := icepick_id &&& ICEPICK_ID_MASK
  if m = CC26X0_ICEPICK_ID then CC26X0_TYPE
  else if m = CC26X1_ICEPICK_ID then CC26X1_TYPE
  else if m = CC13X0_ICEPICK_ID then CC13X0_TYPE
  else if user_id &&& USER_ID_CC13_MASK ≠ 0 then CC13X2_TYPE
  else CC26X2_TYPE

/-- `cc26xx_sram_size` from `cc26xx.c`: chameleon devices decode the 2-bit
size code through a silicon-revision-dependent table, all other identity
codes (the agama case and the `default` case) through the agama table. -/
def cc26xx_sram_size (icepick_id size_code : Nat) : Nat :=
  let m := icepick_id &&& ICEPICK_ID_MASK
  if m = CC26X0_ICEPICK_ID ∨ m = CC26X1_ICEPICK_ID ∨ m = CC13X0_ICEPICK_ID then
    if icepick_id &&& ICEPICK_REV_MASK = 0x00000000 ∨
        icepick_id &&& ICEPICK_REV_MASK = 0x10000000 then
      if size_code = 0 then 0x800
      else if size_code = 1 then 0x1000
      else if size_code = 2 then 0x2000
      else 0x4000
    else
      if size_code = 0 then 0x1000
      else if size_code = 1 then 0x2800
      else if size_code = 2 then 0x4000
      else 0x5000
  else
    if size_code = 0 then 0x8000
    else if size_code = 1 then 0xc000
    else if size_code = 2 then 0x10000
    else 0x14000

/-- `cc26xx_sector_length` from `cc26xx.c`: chameleon devices get one
fixed sector length, every other identity code (agama and `default`) the
other. -/
def cc26xx_sector_length (icepick_id : Nat) : Nat :=
  let m := icepick_id &&& ICEPICK_ID_MASK
  if m = CC26X0_ICEPICK_ID ∨ m = CC26X1_ICEPICK_ID ∨ m = CC13X0_ICEPICK_ID then
    CC26XX_CHAMELEON_SECTOR_LENGTH
  else
    CC26XX_AGAMA_SECTOR_LENGTH

/-! ## Wait-for-done poll loop (`cc26xx_wait_algo_done`)

The status-word reads and the millisecond clock are oracles: `read n` is
the result of the n-th `target_read_buffer` of the status word, `clock 0`
is the `timeval_ms()` taken before the loop (`start_ms`) and `clock (n+1)`
the one taken inside the n-th iteration. -/

structure WaitEnv where
  read : Nat → Except Int Nat
  clock : Nat → Int

deriving instance DecidableEq for Except

/-- Result of the poll loop proper: the read error or the final status
value, the total number of status reads, and the iteration numbers at
which `keep_alive()` fired. -/
structure PollOut where
  fin : Except Int Nat
  polls : Nat
  kas : List Nat
  deriving DecidableEq, Repr

/-- The `keep_alive()` heartbeat of iteration `i`: recorded exactly when
the elapsed time read in that iteration exceeds 500 ms. -/
def waitKa (e : WaitEnv) (i : Nat) : List Nat :=
  if 500 < e.clock (i + 1) - e.clock 0 then [i] else []

/-- The `while (CC26XX_BUFFER_FULL == status)` loop of
`cc26xx_wait_algo_done`, one constructor case per iteration; `fuel`
bounds the number of iterations modelled (`none` = the loop would still
be running). -/
def waitPoll (e : WaitEnv) : Nat → Nat → Option PollOut
  | 0, _ => none
  | fuel+1, i =>
    match e.read i with
    | Except.error r => some ⟨Except.error r, i + 1, []⟩
    | Except.ok status =>
      if FLASH_TIMEOUT < e.clock (i + 1) - e.clock 0 then
        some ⟨Except.ok status, i + 1, waitKa e i⟩
      else if status = CC26XX_BUFFER_FULL then
        match waitPoll e fuel (i + 1) with
        | none => none
        | some out => some ⟨out.fin, out.polls, waitKa e i ++ out.kas⟩
      else some ⟨Except.ok status, i + 1, waitKa e i⟩

/-- Outcome of `cc26xx_wait_algo_done`: return value, number of status
reads, keep-alive iterations, and the family names passed to
`LOG_ERROR`. -/
structure WaitResult where
  retval : Int
  polls : Nat
  kas : List Nat
  errLogs : List String
  deriving DecidableEq, Repr

/-- `cc26xx_wait_algo_done` from `cc26xx.c`: poll until the status leaves
"full", a read error returns immediately, the timeout abandons the loop,
and afterwards anything other than "empty" is a logged fatal failure. -/
def cc26xx_wait_algo_done (family_name : String) (e : WaitEnv) (fuel : Nat) :
    Option WaitResult :=
  match waitPoll e fuel 0 with
  | none => none
  | some out =>
    match out.fin with
    | Except.error r => some ⟨r, out.polls, out.kas, []⟩
    | Except.ok status =>
      if status ≠ CC26XX_BUFFER_EMPTY then
        some ⟨ERROR_FAIL, out.polls, out.kas, [family_name]⟩
      else some ⟨ERROR_OK, out.polls, out.kas, []⟩

/-- A poll iteration at which the loop is certain to stop: a failed read,
an elapsed time beyond `FLASH_TIMEOUT`, or a status other than "full". -/
def exitCond (e : WaitEnv) (j : Nat) : Prop :=
  (∃ r, e.read j = Except.error r) ∨
  FLASH_TIMEOUT < e.clock (j + 1) - e.clock 0 ∨
  (∃ s, e.read j = Except.ok s ∧ s ≠ CC26XX_BUFFER_FULL)

/-! ## Bank state, events and sector bookkeeping -/

/-- One entry of `struct flash_sector`. -/
structure FlashSector where
  offset : Nat
  size : Nat
  is_erased : Int
  is_protected : Int
  deriving DecidableEq, Repr

/-- The fields of `struct flash_bank` and of the driver-private
`struct cc26xx_bank` that the embedded functions touch.  `sectors = none`
models a NULL `bank->sectors` pointer. -/
structure BankState where
  sectors : Option (List FlashSector)
  num_sectors : Nat
  sector_length : Nat
  base : Nat
  bank_number : Nat
  working_area : Option Nat
  icepick_id : Nat
  user_id : Nat
  device_type : Nat
  sram_size : Nat
  size : Nat
  probed : Bool
  algo_family : Option Bool
  deriving DecidableEq, Repr

/-- Observable actions of the driver on the target, recorded in order.
`post s` is the write of a command record into parameter block `s`,
`writeData s` a payload write into data buffer `s`, `wait s` a
`cc26xx_wait_algo_done` on status word `s`, and `quitCall` an invocation
of `cc26xx_quit`. -/
inductive Ev where
  | freeWA
  | allocWA
  | writeAlgoCode
  | startAlgo
  | writeData (slot : Nat)
  | post (slot : Nat)
  | wait (slot : Nat)
  | keepAlive
  | haltTarget
  | joinAlgo
  | quitCall
  deriving DecidableEq, Repr

/-- Point update of a list, the shape of `bank->sectors[i] = ...`. -/
def modifyAt {α : Type} (l : List α) (i : Nat) (f : α → α) : List α :=
  match l, i with
  | [], _ => []
  | a :: t, 0 => f a :: t
  | a :: t, i + 1 => a :: modifyAt t i f

def setIsErased (v : Int) (s : FlashSector) : FlashSector :=
  { s with is_erased := v }

/-- `for (i = first; i < first + cnt; i++) sectors[i].is_erased = v`, the
shape of every erase-status marking loop in `cc26xx.c`. -/
def markRange (v : Int) (l : List FlashSector) (i : Nat) : Nat → List FlashSector
  | 0 => l
  | cnt + 1 => markRange v (modifyAt l i (setIsErased v)) (i + 1) cnt

/-- Erase status of sector `i`, read through the table. -/
def getErased (st : BankState) (i : Nat) : Option Int :=
  st.sectors.bind fun l => (l.get? i).map FlashSector.is_erased

/-! ## Algorithm lifecycle (`cc26xx_init` / `cc26xx_quit`) -/

/-- Oracle results for the fallible primitives `cc26xx_init` consumes:
`cc26xx_auto_probe`, `target_alloc_working_area` (error, or the address
granted), `target_write_buffer` of the helper image, and
`target_start_algorithm`. -/
structure InitEnv where
  auto_probe_res : Int
  alloc_res : Except Int Nat
  write_algo_res : Int
  start_algo_res : Int

def InitEnv.allOk (e : InitEnv) : Prop :=
  e.auto_probe_res = ERROR_OK ∧
  e.alloc_res = Except.ok CC26XX_ALGO_BASE_ADDRESS ∧
  e.write_algo_res = ERROR_OK ∧
  e.start_algo_res = ERROR_OK

/-- Events of the idempotent re-entry guard at the top of `cc26xx_init`:
a stale working area from a previous run is released first. -/
def stale_free_evs (st : BankState) : List Ev :=
  if st.working_area.isSome then [Ev.freeWA] else []

/-- `cc26xx_init` from `cc26xx.c`: auto-probe, release any stale working
area, allocate a fresh one, insist it sits at the linked base address,
upload and start the helper algorithm, and finally mark every sector's
erase status "unknown" (`-1`).  The `startAlgo` event is recorded only
when `target_start_algorithm` succeeded, i.e. exactly when the helper is
left running on the target. -/
def cc26xx_init (e : InitEnv) (st : BankState) : Int × BankState × List Ev :=
  if e.auto_probe_res ≠ ERROR_OK then (e.auto_probe_res, st, [])
  else
    let evs : List Ev := stale_free_evs st
    match e.alloc_res with
    | Except.error r => (r, st, evs ++ [Ev.allocWA])
    | Except.ok addr =>
      let st1 := { st with working_area := some addr }
      if addr ≠ CC26XX_ALGO_BASE_ADDRESS then
        (ERROR_TARGET_RESOURCE_NOT_AVAILABLE, st1, evs ++ [Ev.allocWA])
      else if e.write_algo_res ≠ ERROR_OK then
        (e.write_algo_res, st1, evs ++ [Ev.allocWA, Ev.writeAlgoCode])
      else if e.start_algo_res ≠ ERROR_OK then
        (e.start_algo_res, st1, evs ++ [Ev.allocWA, Ev.writeAlgoCode])
      else
        let st2 :=
          match st1.sectors with
          | none => st1
          | some l => { st1 with sectors := some (markRange (-1) l 0 st1.num_sectors) }
        (ERROR_OK, st2, evs ++ [Ev.allocWA, Ev.writeAlgoCode, Ev.startAlgo])

/-- `cc26xx_quit` from `cc26xx.c`: best-effort halt, join the algorithm
with the flash timeout (`join_res` is the oracle result of
`target_wait_algorithm`), then unconditionally release the working
area. -/
def cc26xx_quit (join_res : Int) (st : BankState) : Int × BankState × List Ev :=
  (join_res, { st with working_area := none },
   [Ev.quitCall, Ev.haltTarget, Ev.joinAlgo, Ev.freeWA])

/-! ## Operation orchestrators -/

/-- Oracles for an orchestrator invocation: whether `target->state` is
`TARGET_HALTED`, the init-phase oracles, the result of the n-th
`target_write_buffer` issued by the orchestrator body, the result of the
n-th `cc26xx_wait_algo_done` call, the `target_wait_algorithm` result
inside `cc26xx_quit`, and whether `elapsed_ms > 500` after chunk n of the
write loop. -/
structure OrchEnv where
  halted : Bool
  init : InitEnv
  write_res : Nat → Int
  wait_res : Nat → Int
  quit_join_res : Int
  write_ka : Nat → Bool

structure OrchOut where
  retval : Int
  st : BankState
  evs : List Ev
  deriving Repr

/-- `cc26xx_mass_erase` from `cc26xx.c`: requires a halted target, starts
the helper, posts one erase-all command through slot 0, waits on slot 0,
always closes the helper down, and marks every sector erased only on
success. -/
def cc26xx_mass_erase (e : OrchEnv) (st : BankState) : OrchOut :=
  if ¬ e.halted then ⟨ERROR_TARGET_NOT_HALTED, st, []⟩
  else
    match cc26xx_init e.init st with
    | (r0, st1, evs1) =>
      if r0 ≠ ERROR_OK then ⟨r0, st1, evs1⟩
      else
        let r1 := e.write_res 0
        let r2 := if r1 = ERROR_OK then e.wait_res 0 else r1
        let evs2 := evs1 ++ [Ev.post 0] ++ (if r1 = ERROR_OK then [Ev.wait 0] else [])
        match cc26xx_quit e.quit_join_res st1 with
        | (_, st2, evsQ) =>
          let evs3 := evs2 ++ evsQ
          if r2 = ERROR_OK then
            match st2.sectors with
            | none => ⟨r2, st2, evs3⟩
            | some l =>
              ⟨r2, { st2 with sectors := some (markRange 1 l 0 st2.num_sectors) }, evs3⟩
          else ⟨r2, st2, evs3⟩

/-- The `for (i = first; i <= last; i++)` handshake loop of
`cc26xx_erase`: post the command record for the next sector into
parameter block `index`, flip `index`, wait on the flipped slot's status
word; any failure breaks out.  Arguments: remaining sector count, current
`index`, next write-oracle and wait-oracle positions.  Returns the loop's
`retval`, the final `index`, the next oracle positions and the recorded
events. -/
def eraseLoop (e : OrchEnv) : Nat → Nat → Nat → Nat → Int × Nat × Nat × Nat × List Ev
  | 0, index, w, q => (ERROR_OK, index, w, q, [])
  | cnt + 1, index, w, q =>
    let r := e.write_res w
    if r ≠ ERROR_OK then (r, index, w + 1, q, [Ev.post index])
    else
      let index1 := index ^^^ 1
      let r2 := e.wait_res q
      if r2 ≠ ERROR_OK then (r2, index1, w + 1, q + 1, [Ev.post index, Ev.wait index1])
      else
        match eraseLoop e cnt index1 (w + 1) (q + 1) with
        | (r3, index2, w2, q2, evs) =>
          (r3, index2, w2, q2, [Ev.post index, Ev.wait index1] ++ evs)

/-- `cc26xx_erase` from `cc26xx.c`: requires a halted target; a request
covering all sectors of bank 0 delegates to `cc26xx_mass_erase`;
otherwise the helper is started, the two ping-pong data buffers are
primed with an all-ones word (a failure here returns at once, skipping
`cc26xx_quit`), the per-sector handshake loop runs, one extra wait
collects the final round, the helper is closed down, and on success
sectors `first..last` are marked erased. -/
def cc26xx_erase (e : OrchEnv) (st : BankState) (first last : Nat) : OrchOut :=
  if ¬ e.halted then ⟨ERROR_TARGET_NOT_HALTED, st, []⟩
  else if st.bank_number = 0 ∧ first = 0 ∧ last = st.num_sectors - 1 then
    cc26xx_mass_erase e st
  else
    match cc26xx_init e.init st with
    | (r0, st1, evs1) =>
      if r0 ≠ ERROR_OK then ⟨r0, st1, evs1⟩
      else
        let r1 := e.write_res 0
        let evs2 := evs1 ++ [Ev.writeData 0]
        if r1 ≠ ERROR_OK then ⟨r1, st1, evs2⟩
        else
          match (if 0 < last - first then (e.write_res 1, evs2 ++ [Ev.writeData 1], 2)
                 else (ERROR_OK, evs2, 1) : Int × List Ev × Nat) with
          | (r2, evs3, w0) =>
            if r2 ≠ ERROR_OK then ⟨r2, st1, evs3⟩
            else
              match eraseLoop e (last + 1 - first) 0 w0 0 with
              | (r3, index3, _, q3, evsL) =>
                let evs4 := evs3 ++ evsL
                match (if r3 = ERROR_OK then (e.wait_res q3, evs4 ++ [Ev.wait (index3 ^^^ 1)])
                       else (r3, evs4) : Int × List Ev) with
                | (r4, evs5) =>
                  match cc26xx_quit e.quit_join_res st1 with
                  | (_, st2, evsQ) =>
                    let evs6 := evs5 ++ evsQ
                    if r4 = ERROR_OK then
                      match st2.sectors with
                      | none => ⟨r4, st2, evs6⟩
                      | some l =>
                        ⟨r4, { st2 with
                                sectors := some (markRange 1 l first (last + 1 - first)) },
                          evs6⟩
                    else ⟨r4, st2, evs6⟩

/-! ## Byte-range program (`cc26xx_write`) -/

/-- `end_address = offset + count - 1` computed in `uint32_t` arithmetic,
exactly as in `cc26xx_write` (no guard for `count == 0`). -/
def write_end_address (offset count : Nat) : Nat :=
  (offset + count + (UINT32_MOD - 1)) % UINT32_MOD

/-- The `while (count > 0)` chunk loop of `cc26xx_write`: each round
writes up to one sector length of data into buffer `index`, posts the
command record for it, flips `index` and waits on the flipped slot; a
failure breaks out; `keep_alive()` may fire after a completed round.
`fuel` bounds the rounds modelled (`none` = the loop would still be
running, which C only does when `sector_length = 0`).  Arguments: fuel,
remaining `count`, `index`, next write and wait oracle positions, round
number.  Returns `retval`, final `index`, oracle positions and events. -/
def writeChunkLoop (e : OrchEnv) (L : Nat) :
    Nat → Nat → Nat → Nat → Nat → Nat → Option (Int × Nat × Nat × Nat × List Ev)
  | 0, count, index, w, q, _ =>
    if count = 0 then some (ERROR_OK, index, w, q, []) else none
  | fuel + 1, count, index, w, q, ci =>
    if count = 0 then some (ERROR_OK, index, w, q, [])
    else
      let size := if L < count then L else count
      let r := e.write_res w
      if r ≠ ERROR_OK then some (r, index, w + 1, q, [Ev.writeData index])
      else
        let r2 := e.write_res (w + 1)
        if r2 ≠ ERROR_OK then
          some (r2, index, w + 2, q, [Ev.writeData index, Ev.post index])
        else
          let index1 := index ^^^ 1
          let r3 := e.wait_res q
          if r3 ≠ ERROR_OK then
            some (r3, index1, w + 2, q + 1, [Ev.writeData index, Ev.post index, Ev.wait index1])
          else
            let ka : List Ev := if e.write_ka ci then [Ev.keepAlive] else []
            match writeChunkLoop e L fuel (count - size) index1 (w + 2) (q + 1) (ci + 1) with
            | none => none
            | some (r4, i4, w4, q4, evs) =>
              some (r4, i4, w4, q4,
                [Ev.writeData index, Ev.post index, Ev.wait index1] ++ ka ++ evs)

/-- The on-success marking loop of `cc26xx_write`:
`while (offset <= end_address) { sector = offset / sector_length; mark;
offset += sector_length; }` with `offset` a wrapping `uint32_t`.  Returns
the sector indices marked within `fuel` iterations and whether the loop
has terminated by then. -/
def writeMark (L : Nat) : Nat → Nat → Nat → List Nat × Bool
  | 0, off, e => ([], decide (e < off))
  | fuel + 1, off, e =>
    if off ≤ e then
      match writeMark L fuel ((off + L) % UINT32_MOD) e with
      | (idxs, done) => (off / L :: idxs, done)
    else ([], true)

/-- `cc26xx_write` from `cc26xx.c`: requires a halted target, starts the
helper, streams the data through the ping-pong handshake, performs the
one extra wait, always closes the helper down, and on success marks
not-erased every sector hit by stepping `offset` in sector-length
strides up to `end_address`.  `fuelM` bounds the marking loop. -/
def cc26xx_write (e : OrchEnv) (st : BankState) (offset count fuelM : Nat) :
    Option OrchOut :=
  if ¬ e.halted then some ⟨ERROR_TARGET_NOT_HALTED, st, []⟩
  else
    match cc26xx_init e.init st with
    | (r0, st1, evs1) =>
      if r0 ≠ ERROR_OK then some ⟨r0, st1, evs1⟩
      else
        match writeChunkLoop e st1.sector_length count count 0 0 0 0 with
        | none => none
        | some (r1, index1, _, q1, evsL) =>
          let evs2 := evs1 ++ evsL
          match (if r1 = ERROR_OK then (e.wait_res q1, evs2 ++ [Ev.wait (index1 ^^^ 1)])
                 else (r1, evs2) : Int × List Ev) with
          | (r2, evs3) =>
            match cc26xx_quit e.quit_join_res st1 with
            | (_, st2, evsQ) =>
              let evs4 := evs3 ++ evsQ
              if r2 = ERROR_OK then
                match st2.sectors with
                | none => some ⟨r2, st2, evs4⟩
                | some l =>
                  match writeMark st1.sector_length fuelM offset
                      (write_end_address offset count) with
                  | (idxs, true) =>
                    let marked := idxs.foldl (fun acc s => modifyAt acc s (setIsErased 0)) l
                    some ⟨r2, { st2 with sectors := some marked }, evs4⟩
                  | (_, false) => none
              else some ⟨r2, st2, evs4⟩

/-! ## Probe (`cc26xx_probe`) -/

/-- Oracle results for `cc26xx_probe`: target halted, the four register
reads (`FCFG1_ICEPICK_ID`, `FCFG1_USER_ID`, `CC26XX_SRAM_SIZE_INFO`,
`CC26XX_FLASH_SIZE_INFO`) and whether `malloc` of the sector table
succeeds. -/
structure ProbeEnv where
  halted : Bool
  icepick_res : Except Int Nat
  user_res : Except Int Nat
  sram_res : Except Int Nat
  flash_size_res : Except Int Nat
  malloc_ok : Bool

/-- `cc26xx_probe` from `cc26xx.c`: read the identity registers, resolve
device type / sector length / SRAM size, read the flash-size register
and cap its low byte at `CC26XX_MAX_SECTOR_COUNT`, select the
family-specific helper image (`algo_family`: `false` = chameleon,
`true` = agama), allocate the sector table, and fill it with
`offset = i * sector_length`, `size = sector_length`, erase status
unknown, protection clear. -/
def cc26xx_probe (e : ProbeEnv) (st : BankState) : Int × BankState :=
  if ¬ e.halted then (ERROR_TARGET_NOT_HALTED, st)
  else
    match e.icepick_res with
    | Except.error r => (r, st)
    | Except.ok v1 =>
      let st := { st with icepick_id := v1 }
      match e.user_res with
      | Except.error r => (r, st)
      | Except.ok v2 =>
        let st := { st with user_id := v2 }
        let st := { st with device_type := cc26xx_device_type st.icepick_id st.user_id }
        let sector_length := cc26xx_sector_length st.icepick_id
        match e.sram_res with
        | Except.error r => (r, st)
        | Except.ok v3 =>
          let st := { st with sram_size := cc26xx_sram_size st.icepick_id v3 }
          match e.flash_size_res with
          | Except.error r => (r, st)
          | Except.ok v4 =>
            let ns0 := v4 &&& 0xff
            let num_sectors :=
              if CC26XX_MAX_SECTOR_COUNT < ns0 then CC26XX_MAX_SECTOR_COUNT else ns0
            let m := st.icepick_id &&& ICEPICK_ID_MASK
            let fam : Bool :=
              ¬ (m = CC26X0_ICEPICK_ID ∨ m = CC26X1_ICEPICK_ID ∨ m = CC13X0_ICEPICK_ID)
            let st := { st with algo_family := some fam }
            if ¬ e.malloc_ok then (ERROR_FAIL, st)
            else
              (ERROR_OK,
               { st with
                  base := CC26XX_FLASH_BASE_ADDR,
                  num_sectors := num_sectors,
                  size := num_sectors * sector_length,
                  sector_length := sector_length,
                  sectors := some ((List.range num_sectors).map
                    (fun i => ⟨i * sector_length, sector_length, -1, 0⟩)),
                  probed := true })

/-! ## Concrete instances used as witnesses and counterexamples -/

/-- Init oracles with every primitive succeeding and the working area
granted at the linked base address. -/
def initOkEnv : InitEnv :=
  ⟨ERROR_OK, Except.ok CC26XX_ALGO_BASE_ADDRESS, ERROR_OK, ERROR_OK⟩

/-- Orchestrator oracles with every target operation succeeding. -/
def envAllOk : OrchEnv :=
  ⟨true, initOkEnv, fun _ => ERROR_OK, fun _ => ERROR_OK, ERROR_OK, fun _ => false⟩

/-- Orchestrator oracles where every `target_write_buffer` issued by the
orchestrator body fails. -/
def envWriteFail : OrchEnv :=
  ⟨true, initOkEnv, fun _ => ERROR_FAIL, fun _ => ERROR_OK, ERROR_OK, fun _ => false⟩

/-- Orchestrator oracles where every wait-for-done fails. -/
def envWaitFail : OrchEnv :=
  ⟨true, initOkEnv, fun _ => ERROR_OK, fun _ => ERROR_FAIL, ERROR_OK, fun _ => false⟩

/-- A probed bank of three 4 KiB sectors, all currently read as erased. -/
def bank3 : BankState :=
  ⟨some [⟨0, 0x1000, 1, 0⟩, ⟨0x1000, 0x1000, 1, 0⟩, ⟨0x2000, 0x1000, 1, 0⟩],
   3, 0x1000, 0, 0, none, 0, 0, 0, 0, 0x3000, true, none⟩

/-- A probed bank of two 4 KiB sectors, all currently read as erased. -/
def bank2 : BankState :=
  ⟨some [⟨0, 0x1000, 1, 0⟩, ⟨0x1000, 0x1000, 1, 0⟩],
   2, 0x1000, 0, 0, none, 0, 0, 0, 0, 0x2000, true, none⟩

/-- Wait-for-done oracles whose status word never leaves "full" and whose
clock advances one millisecond per call. -/
def waitEnvStuck : WaitEnv :=
  ⟨fun _ => Except.ok CC26XX_BUFFER_FULL, fun n => (n : Int)⟩

/-- A five-sector bank whose sector table pointer is NULL (as before the
first probe filled it), used to exercise the handshake traces. -/
def bankNoTable : BankState :=
  ⟨none, 5, 0x1000, 0, 0, none, 0, 0, 0, 0, 0x5000, true, none⟩

/-- Probe oracles for the spec scenario: identity word `0xb900_0477`
(matching no chameleon code, hence decoded through the agama fallback),
SRAM size code 2, flash-size byte `0x80`, allocation succeeding. -/
def probeEnvScenario : ProbeEnv :=
  ⟨true, Except.ok 0xb9000477, Except.ok 0, Except.ok 2, Except.ok 0x80, true⟩

/-! ## Derived notions used to state the protocol claims -/

/-- Number of rounds the write chunk loop performs: `count` split into
pieces of at most one sector length. -/
def nchunks (L count : Nat) : Nat := (count + L - 1) / L

/-- The events of the ping-pong handshake proper: command-record posts
and wait-for-done calls. -/
def isPingPong : Ev → Bool
  | Ev.post _ => true
  | Ev.wait _ => true
  | _ => false

/-- The handshake trace the spec prescribes for `N` rounds: round `i`
posts to slot `i % 2` and then waits on the other slot, and one trailing
wait collects the final round on the slot just posted. -/
def roundTrace (N : Nat) : List Ev :=
  ((List.range N).flatMap fun i => [Ev.post (i % 2), Ev.wait ((i + 1) % 2)]) ++
  [Ev.wait ((N - 1) % 2)]

/-! ## Supporting lemmas on the sector table operations -/

lemma modifyAt_get {α : Type} (f : α → α) :
    ∀ (l : List α) (i j : Nat),
      (modifyAt l i f).get? j = if i = j then (l.get? j).map f else l.get? j := by
  intro l
  induction l with
  | nil => intro i j; cases j <;> simp [modifyAt]
  | cons a t ih =>
    intro i j
    cases i with
    | zero =>
      cases j with
      | zero => simp [modifyAt]
      | succ j => simp [modifyAt]
    | succ i =>
      cases j with
      | zero => simp [modifyAt]
      | succ j => simpa [modifyAt, Nat.succ_inj] using ih i j

lemma modifyAt_length {α : Type} (f : α → α) :
    ∀ (l : List α) (i : Nat), (modifyAt l i f).length = l.length := by
  intro l
  induction l with
  | nil => intro i; simp [modifyAt]
  | cons a t ih =>
    intro i
    cases i with
    | zero => simp [modifyAt]
    | succ i => simp [modifyAt, ih i]

lemma markRange_get (v : Int) :
    ∀ (cnt : Nat) (l : List FlashSector) (i j : Nat),
      (markRange v l i cnt).get? j =
        if i ≤ j ∧ j < i + cnt then (l.get? j).map (setIsErased v) else l.get? j := by
  intro cnt
  induction cnt with
  | zero =>
    intro l i j
    rw [markRange, if_neg]
    omega
  | succ cnt ih =>
    intro l i j
    rw [markRange, ih, modifyAt_get]
    by_cases h1 : i + 1 ≤ j ∧ j < i + 1 + cnt
    · rw [if_pos h1, if_neg (by omega), if_pos (by omega)]
    · rw [if_neg h1]
      by_cases h2 : i = j
      · rw [if_pos h2, if_pos (by omega)]
      · rw [if_neg h2, if_neg (by omega)]

lemma markRange_length (v : Int) :
    ∀ (cnt : Nat) (l : List FlashSector) (i : Nat),
      (markRange v l i cnt).length = l.length := by
  intro cnt
  induction cnt with
  | zero => intro l i; rw [markRange]
  | succ cnt ih => intro l i; rw [markRange, ih, modifyAt_length]

lemma get_map_setIsErased (v : Int) (l : List FlashSector) (j : Nat)
    (hj : j < l.length) :
    ((l.get? j).map (setIsErased v)).map FlashSector.is_erased = some v := by
  rcases List.get?_eq_get hj with h
  rw [h]
  simp [setIsErased]

/-! ## Characterization of `cc26xx_init` -/

lemma cc26xx_init_allOk (e : InitEnv) (st : BankState) (h : e.allOk) :
    cc26xx_init e st =
      (ERROR_OK,
       { st with working_area := some CC26XX_ALGO_BASE_ADDRESS,
                 sectors := st.sectors.map fun l => markRange (-1) l 0 st.num_sectors },
       stale_free_evs st ++ [Ev.allocWA, Ev.writeAlgoCode, Ev.startAlgo]) := by
  obtain ⟨h1, h2, h3, h4⟩ := h
  obtain ⟨sec, ns, sl, bb, bn, wa, ip, ui, dt, ss, sz, pb, af⟩ := st
  rw [cc26xx_init, h2]
  cases sec <;> simp [h1, h3, h4]

lemma cc26xx_init_spec (e : InitEnv) (st : BankState)
    (hwf : ∀ r, e.alloc_res = Except.error r → r ≠ ERROR_OK) :
    ((cc26xx_init e st).1 = ERROR_OK →
      (cc26xx_init e st).2.1.sectors =
        st.sectors.map fun l => markRange (-1) l 0 st.num_sectors) ∧
    ((cc26xx_init e st).1 ≠ ERROR_OK → (cc26xx_init e st).2.1.sectors = st.sectors) ∧
    (cc26xx_init e st).2.1.num_sectors = st.num_sectors := by
  rw [cc26xx_init]
  split
  · next h1 => exact ⟨fun h => absurd h h1, fun _ => rfl, rfl⟩
  · next h1 =>
    split
    · next r heq => exact ⟨fun h => absurd h (hwf r heq), fun _ => rfl, rfl⟩
    · next addr heq =>
      split
      · next h2 =>
        exact ⟨fun h =>
          absurd h (show ERROR_TARGET_RESOURCE_NOT_AVAILABLE ≠ ERROR_OK by decide),
          fun _ => rfl, rfl⟩
      · next h2 =>
        split
        · next h3 => exact ⟨fun h => absurd h h3, fun _ => rfl, rfl⟩
        · next h3 =>
          split
          · next h4 => exact ⟨fun h => absurd h h4, fun _ => rfl, rfl⟩
          · next h4 =>
            cases hs : st.sectors with
            | none =>
              exact ⟨fun _ => by simp [hs],
                fun h => absurd (rfl : (ERROR_OK : Int) = ERROR_OK) h, by simp [hs]⟩
            | some l =>
              exact ⟨fun _ => by simp [hs],
                fun h => absurd (rfl : (ERROR_OK : Int) = ERROR_OK) h, by simp [hs]⟩

/-! ## Loop characterizations on the all-success path -/

lemma mod_two_xor_one (n : Nat) : n % 2 ^^^ 1 = (n + 1) % 2 := by
  rcases Nat.mod_two_eq_zero_or_one n with h | h <;> rw [h]
  · have h2 : (n + 1) % 2 = 1 := by omega
    rw [h2]; decide
  · have h2 : (n + 1) % 2 = 0 := by omega
    rw [h2]; decide

lemma map_add_range (c n : Nat) :
    (List.range (n + 1)).map (fun k => c + k) =
      c :: (List.range n).map fun k => c + 1 + k := by
  rw [List.range_succ_eq_map, List.map_cons, List.map_map]
  refine List.cons_eq_cons.mpr ⟨by simp, List.map_congr_left fun k _ => ?_⟩
  simp only [Function.comp_apply]
  omega

lemma eraseLoop_ok (e : OrchEnv) (hW : ∀ n, e.write_res n = ERROR_OK)
    (hQ : ∀ n, e.wait_res n = ERROR_OK) :
    ∀ (cnt index w q : Nat), index ≤ 1 →
      eraseLoop e cnt index w q =
        (ERROR_OK, (index + cnt) % 2, w + cnt, q + cnt,
         (List.range cnt).flatMap fun i =>
           [Ev.post ((index + i) % 2), Ev.wait ((index + i + 1) % 2)]) := by
  intro cnt
  induction cnt with
  | zero =>
    intro index w q hidx
    simp [eraseLoop, Nat.mod_eq_of_lt (show index < 2 by omega)]
  | succ cnt ih =>
    intro index w q hidx
    have hx : index ^^^ 1 ≤ 1 := by
      rcases (show index = 0 ∨ index = 1 by omega) with h | h <;> subst h <;> decide
    rw [eraseLoop, hW w, hQ q]
    simp only [ne_eq, not_true_eq_false, if_false, ite_false]
    rw [ih (index ^^^ 1) (w + 1) (q + 1) hx]
    rcases (show index = 0 ∨ index = 1 by omega) with h | h <;> subst h <;>
      simp [List.range_succ_eq_map, List.flatMap_cons, List.flatMap_map,
        Prod.mk.injEq, Nat.zero_xor, Nat.xor_self] <;>
      refine ⟨by omega, by omega, by omega, List.flatMap_congr fun i _ => ?_⟩ <;>
      simp only [List.cons.injEq, Ev.post.injEq, Ev.wait.injEq, and_true] <;>
      omega

/-- `cc26xx_mass_erase` on the all-success path: one post and one wait,
both on slot 0, the helper closed down, every sector first reset to
unknown by `cc26xx_init` and then marked erased. -/
lemma cc26xx_mass_erase_ok (e : OrchEnv) (st : BankState)
    (hH : e.halted = true) (hI : e.init.allOk)
    (hW0 : e.write_res 0 = ERROR_OK) (hQ0 : e.wait_res 0 = ERROR_OK) :
    cc26xx_mass_erase e st =
      ⟨ERROR_OK,
       { st with working_area := none,
                 sectors := st.sectors.map fun l =>
                   markRange 1 (markRange (-1) l 0 st.num_sectors) 0 st.num_sectors },
       stale_free_evs st ++
       [Ev.allocWA, Ev.writeAlgoCode, Ev.startAlgo, Ev.post 0, Ev.wait 0,
        Ev.quitCall, Ev.haltTarget, Ev.joinAlgo, Ev.freeWA]⟩ := by
  cases hsec : st.sectors with
  | none =>
    simp [cc26xx_mass_erase, hH, cc26xx_init_allOk e.init st hI, hW0, hQ0,
      cc26xx_quit, hsec]
  | some l =>
    simp [cc26xx_mass_erase, hH, cc26xx_init_allOk e.init st hI, hW0, hQ0,
      cc26xx_quit, hsec]

/-- `cc26xx_erase` on the all-success non-delegating path: the data
buffers primed, `last + 1 - first` handshake rounds starting at slot 0,
the trailing wait, the helper closed down, the requested range marked
erased over the init-reset table. -/
lemma cc26xx_erase_ok (e : OrchEnv) (st : BankState) (first last : Nat)
    (hH : e.halted = true) (hI : e.init.allOk)
    (hW : ∀ n, e.write_res n = ERROR_OK) (hQ : ∀ n, e.wait_res n = ERROR_OK)
    (hnd : ¬ (st.bank_number = 0 ∧ first = 0 ∧ last = st.num_sectors - 1)) :
    cc26xx_erase e st first last =
      ⟨ERROR_OK,
       { st with working_area := none,
                 sectors := st.sectors.map fun l =>
                   markRange 1 (markRange (-1) l 0 st.num_sectors) first
                     (last + 1 - first) },
       stale_free_evs st ++
       [Ev.allocWA, Ev.writeAlgoCode, Ev.startAlgo, Ev.writeData 0] ++
       (if 0 < last - first then [Ev.writeData 1] else []) ++
       ((List.range (last + 1 - first)).flatMap fun i =>
         [Ev.post (i % 2), Ev.wait ((i + 1) % 2)]) ++
       [Ev.wait ((last + 1 - first + 1) % 2), Ev.quitCall, Ev.haltTarget,
        Ev.joinAlgo, Ev.freeWA]⟩ := by
  cases hsec : st.sectors with
  | none =>
    by_cases hml : 0 < last - first <;>
      simp [cc26xx_erase, hH, hnd, hml, cc26xx_init_allOk e.init st hI, hW, hQ,
        eraseLoop_ok e hW hQ, mod_two_xor_one, cc26xx_quit, hsec]
  | some l =>
    by_cases hml : 0 < last - first <;>
      simp [cc26xx_erase, hH, hnd, hml, cc26xx_init_allOk e.init st hI, hW, hQ,
        eraseLoop_ok e hW hQ, mod_two_xor_one, cc26xx_quit, hsec]

/-! ## Claim C3 -/

lemma waitKa_mem (e : WaitEnv) (i j : Nat) :
    j ∈ waitKa e i ↔ j = i ∧ 500 < e.clock (i + 1) - e.clock 0 := by
  unfold waitKa
  split
  · next h => simp [h]
  · next h => simp [h]

/-- Trace-level characterization of the poll loop: the polls performed,
the relation of the final outcome to the oracle reads, the timeout
abandon, and the heartbeat set. -/
lemma waitPoll_spec (e : WaitEnv) :
    ∀ (fuel i : Nat) (out : PollOut), waitPoll e fuel i = some out →
      i < out.polls ∧
      (∀ j, i ≤ j → j + 1 < out.polls →
        e.read j = Except.ok CC26XX_BUFFER_FULL ∧
        e.clock (j + 1) - e.clock 0 ≤ FLASH_TIMEOUT) ∧
      out.fin = e.read (out.polls - 1) ∧
      (∀ j, j ∈ out.kas ↔
        (i ≤ j ∧ j < out.polls ∧ (∃ s, e.read j = Except.ok s) ∧
         500 < e.clock (j + 1) - e.clock 0)) := by
  intro fuel
  induction fuel with
  | zero =>
    intro i out h
    exact absurd h (by simp [waitPoll])
  | succ fuel ih =>
    intro i out h
    rw [waitPoll] at h
    cases heq : e.read i with
    | error r =>
      rw [heq] at h
      simp only [Option.some.injEq] at h
      subst h
      refine ⟨show i < i + 1 by omega, fun j hj1 hj2 => ?_, ?_, fun j => ?_⟩
      · exact absurd (show j + 1 < i + 1 from hj2) (by omega)
      · show Except.error r = e.read (i + 1 - 1)
        rw [show i + 1 - 1 = i from by omega, heq]
      · show j ∈ ([] : List Nat) ↔ _
        constructor
        · intro hj
          exact absurd hj (List.not_mem_nil j)
        · rintro ⟨hj1, hj2, ⟨s, hs⟩, _⟩
          have hji : j = i := by
            have h2i : j < i + 1 := hj2
            omega
          subst hji
          rw [heq] at hs
          exact Except.noConfusion hs
    | ok status =>
      rw [heq] at h
      by_cases ht : FLASH_TIMEOUT < e.clock (i + 1) - e.clock 0
      · simp only [if_pos ht, Option.some.injEq] at h
        subst h
        refine ⟨show i < i + 1 by omega, fun j hj1 hj2 => ?_, ?_, fun j => ?_⟩
        · exact absurd (show j + 1 < i + 1 from hj2) (by omega)
        · show Except.ok status = e.read (i + 1 - 1)
          rw [show i + 1 - 1 = i from by omega, heq]
        · show j ∈ waitKa e i ↔ _
          rw [waitKa_mem]
          constructor
          · rintro ⟨rfl, hk⟩
            exact ⟨le_refl j, show j < j + 1 by omega, ⟨status, heq⟩, hk⟩
          · rintro ⟨hj1, hj2, _, hk⟩
            have hji : j = i := by
              have h2i : j < i + 1 := hj2
              omega
            subst hji
            exact ⟨rfl, hk⟩
      · simp only [if_neg ht] at h
        by_cases hs : status = CC26XX_BUFFER_FULL
        · simp only [if_pos hs] at h
          rcases hrec : waitPoll e fuel (i + 1) with _ | out2
          · rw [hrec] at h
            exact absurd h (by simp)
          · rw [hrec] at h
            simp only [Option.some.injEq] at h
            subst h
            obtain ⟨ih1, ih2, ih3, ih4⟩ := ih (i + 1) out2 hrec
            refine ⟨show i < out2.polls by omega, fun j hj1 hj2 => ?_,
              ih3, fun j => ?_⟩
            · rcases Nat.eq_or_lt_of_le hj1 with rfl | hj3
              · rw [heq, hs]
                exact ⟨rfl, not_lt.mp ht⟩
              · exact ih2 j (by omega) hj2
            · show j ∈ waitKa e i ++ out2.kas ↔ _
              rw [List.mem_append, waitKa_mem, ih4 j]
              constructor
              · rintro (⟨rfl, hk⟩ | ⟨hj1, hj2, hok, hk⟩)
                · exact ⟨le_refl j, show j < out2.polls by omega,
                    ⟨status, heq⟩, hk⟩
                · exact ⟨by omega, hj2, hok, hk⟩
              · rintro ⟨hj1, hj2, hok, hk⟩
                rcases Nat.eq_or_lt_of_le hj1 with rfl | hj3
                · exact Or.inl ⟨rfl, hk⟩
                · exact Or.inr ⟨by omega, hj2, hok, hk⟩
        · simp only [if_neg hs, Option.some.injEq] at h
          subst h
          refine ⟨show i < i + 1 by omega, fun j hj1 hj2 => ?_, ?_, fun j => ?_⟩
          · exact absurd (show j + 1 < i + 1 from hj2) (by omega)
          · show Except.ok status = e.read (i + 1 - 1)
            rw [show i + 1 - 1 = i from by omega, heq]
          · show j ∈ waitKa e i ↔ _
            rw [waitKa_mem]
            constructor
            · rintro ⟨rfl, hk⟩
              exact ⟨le_refl j, show j < j + 1 by omega, ⟨status, heq⟩, hk⟩
            · rintro ⟨hj1, hj2, _, hk⟩
              have hji : j = i := by
                have h2i : j < i + 1 := hj2
                omega
              subst hji
              exact ⟨rfl, hk⟩

/-- Termination of the poll loop: fuel one past a known exit iteration
is enough for the loop to deliver a definite outcome. -/
lemma waitPoll_isSome (e : WaitEnv) :
    ∀ (n i : Nat), exitCond e (i + n) →
      ∀ fuel, n < fuel → (waitPoll e fuel i).isSome := by
  intro n
  induction n with
  | zero =>
    intro i hexit fuel hf
    rw [show i + 0 = i from rfl] at hexit
    match fuel, hf with
    | fuel + 1, _ =>
      rw [waitPoll]
      rcases hexit with ⟨r, hr⟩ | ht | ⟨s, hs, hsf⟩
      · rw [hr]
        simp
      · cases heq : e.read i with
        | error r => simp
        | ok status => simp [if_pos ht]
      · rw [hs]
        by_cases ht : FLASH_TIMEOUT < e.clock (i + 1) - e.clock 0
        · simp [if_pos ht]
        · simp [if_neg ht, if_neg hsf]
  | succ n ih =>
    intro i hexit fuel hf
    match fuel, hf with
    | fuel + 1, hf2 =>
      rw [waitPoll]
      cases heq : e.read i with
      | error r => simp
      | ok status =>
        by_cases ht : FLASH_TIMEOUT < e.clock (i + 1) - e.clock 0
        · simp [if_pos ht]
        · by_cases hs : status = CC26XX_BUFFER_FULL
          · have hrec : (waitPoll e fuel (i + 1)).isSome := by
              refine ih (i + 1) ?_ fuel (by omega)
              rw [show i + 1 + n = i + (n + 1) from by omega]
              exact hexit
            rcases hpoll : waitPoll e fuel (i + 1) with _ | out2
            · rw [hpoll] at hrec
              exact absurd hrec (by simp)
            · simp [if_neg ht, if_pos hs, hpoll]
          · simp [if_neg ht, if_neg hs]

/-- C3: the wait-for-done loop (1) terminates whenever some iteration is
bound to exit it — in particular once the unbounded clock passes the
8000 ms flash timeout, even with the status stuck at "full"; and for
every completed run: (2) at least one status read happens, (3) success
is returned exactly when the last status value read is "empty", (4) a
failure is either the immediately propagated error of the final (failed)
status read with nothing logged, or `ERROR_FAIL` logged with the device
family name, (5) no iteration starts after the elapsed time has exceeded
the 8000 ms timeout, and (6) the keep-alive heartbeat fires exactly at
the iterations whose elapsed time exceeds 500 ms. -/
theorem claim_C3 (fam : String) (e : WaitEnv) (fuel : Nat)
    (hErr : ∀ i r, e.read i = Except.error r → r ≠ ERROR_OK) :
    ((∃ N, exitCond e N) →
      ∃ fl out, cc26xx_wait_algo_done fam e fl = some out) ∧
    (∀ out, cc26xx_wait_algo_done fam e fuel = some out →
      1 ≤ out.polls ∧
      (out.retval = ERROR_OK ↔
        e.read (out.polls - 1) = Except.ok CC26XX_BUFFER_EMPTY) ∧
      (out.retval ≠ ERROR_OK →
        (e.read (out.polls - 1) = Except.error out.retval ∧
          out.errLogs = []) ∨
        (out.retval = ERROR_FAIL ∧ out.errLogs = [fam])) ∧
      (∀ j, j + 1 < out.polls →
        e.clock (j + 1) - e.clock 0 ≤ FLASH_TIMEOUT) ∧
      (∀ j, j ∈ out.kas ↔
        j < out.polls ∧ (∃ s, e.read j = Except.ok s) ∧
        500 < e.clock (j + 1) - e.clock 0)) := by
  constructor
  · rintro ⟨N, hN⟩
    have hsome := waitPoll_isSome e N 0 (by simpa using hN) (N + 1) (by omega)
    rcases hpoll : waitPoll e (N + 1) 0 with _ | pout
    · rw [hpoll] at hsome
      exact absurd hsome (by simp)
    · obtain ⟨fin, polls, kas⟩ := pout
      refine ⟨N + 1, ?_⟩
      rw [cc26xx_wait_algo_done, hpoll]
      cases fin with
      | error r => exact ⟨_, rfl⟩
      | ok status =>
        exact ⟨_, (apply_ite some (status ≠ CC26XX_BUFFER_EMPTY) _ _).symm⟩
  · intro out h
    rw [cc26xx_wait_algo_done] at h
    rcases hpoll : waitPoll e fuel 0 with _ | pout
    · rw [hpoll] at h
      exact absurd h (by simp)
    · rw [hpoll] at h
      obtain ⟨fin, polls, kas⟩ := pout
      obtain ⟨s1, s2, s3, s4⟩ := waitPoll_spec e fuel 0 ⟨fin, polls, kas⟩ hpoll
      have hp : 0 < polls := s1
      have hfe : fin = e.read (polls - 1) := s3
      have htm : ∀ j, j + 1 < polls →
          e.clock (j + 1) - e.clock 0 ≤ FLASH_TIMEOUT :=
        fun j hj => (s2 j (by omega) hj).2
      have hka : ∀ j, j ∈ kas ↔
          j < polls ∧ (∃ s, e.read j = Except.ok s) ∧
          500 < e.clock (j + 1) - e.clock 0 := by
        intro j
        constructor
        · intro hj
          obtain ⟨_, a, b, c⟩ := (s4 j).mp hj
          exact ⟨a, b, c⟩
        · rintro ⟨a, b, c⟩
          exact (s4 j).mpr ⟨by omega, a, b, c⟩
      cases fin with
      | error r =>
        simp only [Option.some.injEq] at h
        subst h
        refine ⟨show 1 ≤ polls by omega, ?_, ?_, htm, hka⟩
        · constructor
          · intro hr
            exact absurd hr (hErr (polls - 1) r hfe.symm)
          · intro hread
            rw [← hfe] at hread
            exact Except.noConfusion hread
        · intro _
          exact Or.inl ⟨hfe.symm, rfl⟩
      | ok status =>
        by_cases hst : status ≠ CC26XX_BUFFER_EMPTY
        · simp only [if_pos hst, Option.some.injEq] at h
          subst h
          refine ⟨show 1 ≤ polls by omega, ?_, ?_, htm, hka⟩
          · constructor
            · intro hr
              exact absurd hr (show ERROR_FAIL ≠ ERROR_OK by decide)
            · intro hread
              rw [← hfe] at hread
              simp only [Except.ok.injEq] at hread
              exact absurd hread hst
          · intro _
            exact Or.inr ⟨rfl, rfl⟩
        · simp only [if_neg hst, Option.some.injEq] at h
          subst h
          push_neg at hst
          refine ⟨show 1 ≤ polls by omega, ?_, ?_, htm, hka⟩
          · constructor
            · intro _
              rw [← hfe, hst]
            · intro _
              rfl
          · intro hne
            exact absurd rfl hne

/-- C3, witness: with the status word stuck at "full" and a strictly
advancing clock, the loop still delivers a definite outcome. -/
theorem claim_C3_witness :
    ∃ fl out, cc26xx_wait_algo_done "cc26xx" waitEnvStuck fl = some out :=
  (claim_C3 "cc26xx" waitEnvStuck 0
    (fun i r h => by simp [waitEnvStuck] at h)).1
    ⟨8001, Or.inr (Or.inl (by norm_num [waitEnvStuck, FLASH_TIMEOUT]))⟩

/-! ## Claim C1 -/

/-- C1: evaluation of `cc26xx_erase` at the failing input.  On a halted
target with a successfully started helper algorithm (the `startAlgo`
event is in the trace), a failure of the very first buffer-priming
`target_write_buffer` makes the orchestrator return without ever calling
`cc26xx_quit` (zero `quitCall` events), contradicting the claim that the
lifecycle stop runs exactly once on every exit path. -/
theorem claim_C1_quit_skipped_on_prime_failure :
    (cc26xx_erase envWriteFail bank3 0 1).retval = ERROR_FAIL ∧
    Ev.startAlgo ∈ (cc26xx_erase envWriteFail bank3 0 1).evs ∧
    (cc26xx_erase envWriteFail bank3 0 1).evs.count Ev.quitCall = 0 := by
  decide

/-! ## Claim C5 -/

/-- C5 counterexample: `erase(0, 0)` on a three-sector bank (not the
whole bank) succeeds, yet sector 2 — outside the erased range — changes
from erased (`1`) to unknown (`-1`), because `cc26xx_init` resets the
whole table to unknown before the erase runs.  This falsifies "the erase
status of every sector outside [a, b] is unchanged". -/
theorem claim_C5_counterexample :
    (cc26xx_erase envAllOk bank3 0 0).retval = ERROR_OK ∧
    getErased bank3 2 = some 1 ∧
    getErased (cc26xx_erase envAllOk bank3 0 0).st 2 = some (-1) ∧
    (some (-1 : Int) ≠ some (1 : Int)) := by
  decide

/-- C5 amended: after a successful `erase(first, last)` on a halted
target over a range that does not trigger the mass-erase delegation,
sectors `first..last` read erased and every other sector of the bank
reads unknown — not its prior value — because the algorithm-start step
resets the whole table to unknown before the erase runs. -/
theorem claim_C5_amended (e : OrchEnv) (st : BankState) (l : List FlashSector)
    (first last : Nat)
    (hH : e.halted = true) (hI : e.init.allOk)
    (hW : ∀ n, e.write_res n = ERROR_OK) (hQ : ∀ n, e.wait_res n = ERROR_OK)
    (hsec : st.sectors = some l) (hlen : l.length = st.num_sectors)
    (hfl : first ≤ last) (_hlast : last < st.num_sectors)
    (hnd : ¬ (st.bank_number = 0 ∧ first = 0 ∧ last = st.num_sectors - 1)) :
    (cc26xx_erase e st first last).retval = ERROR_OK ∧
    ∀ i, i < st.num_sectors →
      getErased (cc26xx_erase e st first last).st i =
        some (if first ≤ i ∧ i ≤ last then 1 else -1) := by
  rw [cc26xx_erase_ok e st first last hH hI hW hQ hnd]
  refine ⟨rfl, fun i hi => ?_⟩
  have hil : i < l.length := by omega
  simp only [getErased, hsec, Option.map_some', Option.some_bind]
  rw [markRange_get, markRange_get]
  by_cases hc : first ≤ i ∧ i < first + (last + 1 - first)
  · rw [if_pos hc, if_pos (by omega), if_pos (by omega)]
    rw [List.get?_eq_get hil]
    simp [setIsErased]
  · rw [if_neg hc, if_pos (by omega), if_neg (by omega)]
    rw [List.get?_eq_get hil]
    simp [setIsErased]

/-- C5 amended, witness: the three-sector bank with `erase(0, 0)`;
sector 0 reads erased, sectors 1 and 2 read unknown. -/
theorem claim_C5_amended_witness :
    (cc26xx_erase envAllOk bank3 0 0).retval = ERROR_OK ∧
    ∀ i, i < bank3.num_sectors →
      getErased (cc26xx_erase envAllOk bank3 0 0).st i =
        some (if 0 ≤ i ∧ i ≤ 0 then 1 else -1) :=
  claim_C5_amended envAllOk bank3
    [⟨0, 0x1000, 1, 0⟩, ⟨0x1000, 0x1000, 1, 0⟩, ⟨0x2000, 0x1000, 1, 0⟩] 0 0
    rfl ⟨rfl, rfl, rfl, rfl⟩ (fun _ => rfl) (fun _ => rfl) rfl rfl
    (by decide) (by decide) (by decide)

/-! ## Claim C6 -/

/-- C6 counterexample: a mass erase whose wait-for-done fails returns a
failure, yet the sector table was modified by the call: sector 0 changes
from erased (`1`) to unknown (`-1`), reset by `cc26xx_init`.  This
falsifies "when it returns failure, the call itself does not touch the
sector erase-state table". -/
theorem claim_C6_counterexample :
    (cc26xx_mass_erase envWaitFail bank2).retval = ERROR_FAIL ∧
    getErased bank2 0 = some 1 ∧
    getErased (cc26xx_mass_erase envWaitFail bank2).st 0 = some (-1) ∧
    (cc26xx_mass_erase envWaitFail bank2).st.sectors ≠ bank2.sectors := by
  decide

/-- C6 amended: mass erase marks sectors erased only on success (success
implies every sector reads erased); a failing call never performs the
erased-marking, but it can still modify the table: any failure after the
helper was started leaves every sector explicitly reset to unknown by
`cc26xx_init`, while failures before that leave the table untouched. -/
theorem claim_C6_amended (e : OrchEnv) (st : BankState) (l : List FlashSector)
    (hsec : st.sectors = some l) (hlen : l.length = st.num_sectors)
    (hwf : ∀ r, e.init.alloc_res = Except.error r → r ≠ ERROR_OK) :
    ((cc26xx_mass_erase e st).retval = ERROR_OK →
      ∀ i, i < st.num_sectors →
        getErased (cc26xx_mass_erase e st).st i = some 1) ∧
    ((cc26xx_mass_erase e st).retval ≠ ERROR_OK →
      (cc26xx_mass_erase e st).st.sectors = some l ∨
      (cc26xx_mass_erase e st).st.sectors =
        some (markRange (-1) l 0 st.num_sectors)) := by
  by_cases hH : e.halted
  case neg =>
    rw [cc26xx_mass_erase, if_pos (by simp [hH])]
    exact ⟨fun h =>
      absurd h (show ERROR_TARGET_NOT_HALTED ≠ ERROR_OK by decide),
      fun _ => Or.inl hsec⟩
  case pos =>
    by_cases h1 : e.init.auto_probe_res = ERROR_OK
    case neg =>
      simp [cc26xx_mass_erase, cc26xx_init, hH, h1, hsec]
    case pos =>
      cases halloc : e.init.alloc_res with
      | error r =>
        have hne := hwf r halloc
        simp [cc26xx_mass_erase, cc26xx_init, hH, h1, halloc, hne, hsec]
      | ok addr =>
        by_cases h2 : addr = CC26XX_ALGO_BASE_ADDRESS
        case neg =>
          simp [cc26xx_mass_erase, cc26xx_init, hH, h1, halloc, h2, hsec,
            show ERROR_TARGET_RESOURCE_NOT_AVAILABLE ≠ ERROR_OK by decide]
        case pos =>
          by_cases h3 : e.init.write_algo_res = ERROR_OK
          case neg =>
            simp [cc26xx_mass_erase, cc26xx_init, hH, h1, halloc, h2, h3, hsec]
          case pos =>
            by_cases h4 : e.init.start_algo_res = ERROR_OK
            case neg =>
              simp [cc26xx_mass_erase, cc26xx_init, hH, h1, halloc, h2, h3, h4,
                hsec]
            case pos =>
              have hI : e.init.allOk := ⟨h1, by rw [halloc, h2], h3, h4⟩
              by_cases hw0 : e.write_res 0 = ERROR_OK
              case neg =>
                simp [cc26xx_mass_erase, hH, cc26xx_init_allOk e.init st hI,
                  cc26xx_quit, hw0, hsec]
              case pos =>
                by_cases hq0 : e.wait_res 0 = ERROR_OK
                case neg =>
                  simp [cc26xx_mass_erase, hH, cc26xx_init_allOk e.init st hI,
                    cc26xx_quit, hw0, hq0, hsec]
                case pos =>
                  rw [cc26xx_mass_erase_ok e st (by simp [hH]) hI hw0 hq0]
                  refine ⟨fun _ i hi => ?_, fun h => absurd rfl h⟩
                  simp only [getErased, hsec, Option.map_some', Option.some_bind]
                  rw [markRange_get, if_pos (by omega), markRange_get,
                    if_pos (by omega)]
                  rw [List.get?_eq_get (show i < l.length by omega)]
                  simp [setIsErased]

/-- C6 amended, witness: the failing-wait mass erase on the two-sector
bank ends with both sectors reset to unknown, and a successful one marks
both erased. -/
theorem claim_C6_amended_witness :
    ((cc26xx_mass_erase envWaitFail bank2).retval = ERROR_OK →
      ∀ i, i < bank2.num_sectors →
        getErased (cc26xx_mass_erase envWaitFail bank2).st i = some 1) ∧
    ((cc26xx_mass_erase envWaitFail bank2).retval ≠ ERROR_OK →
      (cc26xx_mass_erase envWaitFail bank2).st.sectors =
        some [⟨0, 0x1000, 1, 0⟩, ⟨0x1000, 0x1000, 1, 0⟩] ∨
      (cc26xx_mass_erase envWaitFail bank2).st.sectors =
        some (markRange (-1) [⟨0, 0x1000, 1, 0⟩, ⟨0x1000, 0x1000, 1, 0⟩] 0
          bank2.num_sectors)) :=
  claim_C6_amended envWaitFail bank2
    [⟨0, 0x1000, 1, 0⟩, ⟨0x1000, 0x1000, 1, 0⟩] rfl rfl
    (fun r h => by simp [envWaitFail, initOkEnv] at h)

/-! ## Claim C8 -/

/-- C8: `erase(0, num_sectors - 1)` on bank 0 literally delegates to the
mass-erase path, and on the all-success path its final sector table is
identical to the one the per-sector loop produces for the same range (run
here on an otherwise identical bank numbered 1, which takes the
non-delegating path): every sector marked erased. -/
theorem claim_C8 (e : OrchEnv) (st : BankState) (l : List FlashSector)
    (hH : e.halted = true) (hI : e.init.allOk)
    (hW : ∀ n, e.write_res n = ERROR_OK) (hQ : ∀ n, e.wait_res n = ERROR_OK)
    (hb : st.bank_number = 0) (hsec : st.sectors = some l)
    (hlen : l.length = st.num_sectors) (hn : 1 ≤ st.num_sectors) :
    cc26xx_erase e st 0 (st.num_sectors - 1) = cc26xx_mass_erase e st ∧
    (cc26xx_erase e st 0 (st.num_sectors - 1)).retval = ERROR_OK ∧
    (cc26xx_erase e st 0 (st.num_sectors - 1)).st.sectors =
      (cc26xx_erase e { st with bank_number := 1 } 0
        (st.num_sectors - 1)).st.sectors ∧
    ∀ i, i < st.num_sectors →
      getErased (cc26xx_erase e st 0 (st.num_sectors - 1)).st i = some 1 := by
  have hdel : cc26xx_erase e st 0 (st.num_sectors - 1) = cc26xx_mass_erase e st := by
    rw [cc26xx_erase, if_neg (by simp [hH]), if_pos ⟨hb, rfl, rfl⟩]
  have hmass := cc26xx_mass_erase_ok e st hH hI (hW 0) (hQ 0)
  have hrange := cc26xx_erase_ok e { st with bank_number := 1 } 0
    (st.num_sectors - 1) hH hI hW hQ (by simp)
  have hc : st.num_sectors - 1 + 1 - 0 = st.num_sectors := by omega
  refine ⟨hdel, ?_, ?_, ?_⟩
  · rw [hdel, hmass]
  · rw [hdel, hmass, hrange]
    simp only [hc]
  · intro i hi
    rw [hdel, hmass]
    simp only [getErased, hsec, Option.map_some', Option.some_bind]
    rw [markRange_get, if_pos (by omega), markRange_get, if_pos (by omega)]
    have hil : i < l.length := by omega
    rw [List.get?_eq_get hil]
    simp [setIsErased]

/-- C8, witness: the three-sector bank, `erase(0, 2)` on bank 0. -/
theorem claim_C8_witness :
    cc26xx_erase envAllOk bank3 0 (bank3.num_sectors - 1) =
      cc26xx_mass_erase envAllOk bank3 ∧
    (cc26xx_erase envAllOk bank3 0 (bank3.num_sectors - 1)).retval = ERROR_OK ∧
    (cc26xx_erase envAllOk bank3 0 (bank3.num_sectors - 1)).st.sectors =
      (cc26xx_erase envAllOk { bank3 with bank_number := 1 } 0
        (bank3.num_sectors - 1)).st.sectors ∧
    ∀ i, i < bank3.num_sectors →
      getErased (cc26xx_erase envAllOk bank3 0 (bank3.num_sectors - 1)).st i =
        some 1 :=
  claim_C8 envAllOk bank3
    [⟨0, 0x1000, 1, 0⟩, ⟨0x1000, 0x1000, 1, 0⟩, ⟨0x2000, 0x1000, 1, 0⟩]
    rfl ⟨rfl, rfl, rfl, rfl⟩ (fun _ => rfl) (fun _ => rfl) rfl rfl rfl
    (by decide)

/-! ## Claim C4 -/

/-- C4 counterexample: a successful `write(buf, 0x0fff, 2)` on a
two-sector bank.  Sector 1 overlaps the byte range
`[0x0fff, 0x1001)` (conjuncts 3 and 4), yet its erase status after the
call is unknown (`-1`), not not-erased (`0`): the marking loop steps from
the unaligned `offset` in sector-length strides and never lands inside
sector 1. -/
theorem claim_C4_counterexample :
    ((cc26xx_write envAllOk bank2 0x0fff 2 4).map OrchOut.retval = some ERROR_OK) ∧
    ((cc26xx_write envAllOk bank2 0x0fff 2 4).bind (fun o => getErased o.st 1)
      = some (-1)) ∧
    (1 * 0x1000 < 0x0fff + 2) ∧ (0x0fff < 2 * 0x1000) ∧
    (some (-1 : Int) ≠ some (0 : Int)) := by
  decide

/-! ## Write-path characterizations -/

lemma nchunks_zero (L : Nat) (hL : 1 ≤ L) : nchunks L 0 = 0 := by
  unfold nchunks
  exact Nat.div_eq_of_lt (by omega)

lemma nchunks_step (L count : Nat) (hL : 1 ≤ L) (hc : 1 ≤ count) :
    nchunks L count =
      nchunks L (count - (if L < count then L else count)) + 1 := by
  unfold nchunks
  by_cases h : L < count
  · rw [if_pos h]
    have e1 : count + L - 1 = count - L + L - 1 + L := by omega
    rw [e1, Nat.add_div_right _ (by omega)]
  · rw [if_neg h]
    have e1 : count - count = 0 := by omega
    rw [e1]
    have e3 : 0 + L - 1 = L - 1 := by omega
    rw [e3, Nat.div_eq_of_lt (show L - 1 < L by omega)]
    have e2 : count + L - 1 = count - 1 + L := by omega
    rw [e2, Nat.add_div_right _ (show 0 < L by omega),
      Nat.div_eq_of_lt (show count - 1 < L by omega)]

/-- The chunk loop of `cc26xx_write` on the all-success path with fuel at
least `count`: `nchunks` rounds, each writing data and posting on the
current slot and waiting on the other, slots alternating from `index`. -/
lemma writeChunkLoop_ok (e : OrchEnv) (L : Nat) (hL : 1 ≤ L)
    (hW : ∀ n, e.write_res n = ERROR_OK) (hQ : ∀ n, e.wait_res n = ERROR_OK)
    (hKA : ∀ n, e.write_ka n = false) :
    ∀ (fuel count index w q ci : Nat), count ≤ fuel → index ≤ 1 →
      writeChunkLoop e L fuel count index w q ci =
        some (ERROR_OK, (index + nchunks L count) % 2,
          w + 2 * nchunks L count, q + nchunks L count,
          (List.range (nchunks L count)).flatMap fun i =>
            [Ev.writeData ((index + i) % 2), Ev.post ((index + i) % 2),
             Ev.wait ((index + i + 1) % 2)]) := by
  intro fuel
  induction fuel with
  | zero =>
    intro count index w q ci hc hidx
    have h0 : count = 0 := by omega
    subst h0
    simp [writeChunkLoop, nchunks_zero L hL,
      Nat.mod_eq_of_lt (show index < 2 by omega)]
  | succ fuel ih =>
    intro count index w q ci hc hidx
    by_cases h0 : count = 0
    · subst h0
      simp [writeChunkLoop, nchunks_zero L hL,
        Nat.mod_eq_of_lt (show index < 2 by omega)]
    · have hx : index ^^^ 1 ≤ 1 := by
        rcases (show index = 0 ∨ index = 1 by omega) with h | h <;> subst h <;>
          decide
      have hsz : 1 ≤ (if L < count then L else count) := by
        by_cases h : L < count
        · rw [if_pos h]; omega
        · rw [if_neg h]; omega
      rw [writeChunkLoop, if_neg h0, hW w, hW (w + 1), hQ q, hKA ci]
      simp only [ne_eq, not_true_eq_false, if_false, ite_false]
      rw [ih (count - (if L < count then L else count)) (index ^^^ 1) (w + 2)
        (q + 1) (ci + 1) (by omega) hx]
      rw [nchunks_step L count hL (by omega)]
      rcases (show index = 0 ∨ index = 1 by omega) with h | h <;> subst h <;>
        simp [List.range_succ_eq_map, List.flatMap_cons, List.flatMap_map,
          Prod.mk.injEq, Nat.zero_xor, Nat.xor_self] <;>
        refine ⟨by omega, by omega, by omega,
          List.flatMap_congr fun i _ => ?_⟩ <;>
        simp only [List.cons.injEq, Ev.writeData.injEq, Ev.post.injEq,
          Ev.wait.injEq, and_true] <;>
        omega

/-- `cc26xx_write` on the all-success path: the chunk-loop handshake,
the trailing wait, the helper closed down, and — when the sector table
exists and the marking loop terminates within `fuelM` — the marked table
over the init-reset one.  A non-terminating marking loop yields `none`
(the C code would loop forever). -/
lemma cc26xx_write_ok (e : OrchEnv) (st : BankState)
    (offset count fuelM : Nat)
    (hH : e.halted = true) (hI : e.init.allOk) (hL : 1 ≤ st.sector_length)
    (hW : ∀ n, e.write_res n = ERROR_OK) (hQ : ∀ n, e.wait_res n = ERROR_OK)
    (hKA : ∀ n, e.write_ka n = false) :
    cc26xx_write e st offset count fuelM =
      (match st.sectors with
       | none =>
         some ⟨ERROR_OK, { st with working_area := none },
           stale_free_evs st ++ [Ev.allocWA, Ev.writeAlgoCode, Ev.startAlgo] ++
           ((List.range (nchunks st.sector_length count)).flatMap fun i =>
             [Ev.writeData (i % 2), Ev.post (i % 2), Ev.wait ((i + 1) % 2)]) ++
           [Ev.wait ((nchunks st.sector_length count + 1) % 2), Ev.quitCall,
            Ev.haltTarget, Ev.joinAlgo, Ev.freeWA]⟩
       | some l =>
         match writeMark st.sector_length fuelM offset
             (write_end_address offset count) with
         | (idxs, true) =>
           some ⟨ERROR_OK,
             { st with working_area := none,
                       sectors := some (idxs.foldl
                         (fun acc s => modifyAt acc s (setIsErased 0))
                         (markRange (-1) l 0 st.num_sectors)) },
             stale_free_evs st ++ [Ev.allocWA, Ev.writeAlgoCode, Ev.startAlgo] ++
             ((List.range (nchunks st.sector_length count)).flatMap fun i =>
               [Ev.writeData (i % 2), Ev.post (i % 2), Ev.wait ((i + 1) % 2)]) ++
             [Ev.wait ((nchunks st.sector_length count + 1) % 2), Ev.quitCall,
              Ev.haltTarget, Ev.joinAlgo, Ev.freeWA]⟩
         | (_, false) => none) := by
  have hloop := writeChunkLoop_ok e st.sector_length hL hW hQ hKA count count
    0 0 0 0 (le_refl count) (by omega)
  cases hsec : st.sectors with
  | none =>
    simp [cc26xx_write, hH, cc26xx_init_allOk e.init st hI, hsec, hloop, hQ,
      cc26xx_quit, mod_two_xor_one]
  | some l =>
    rcases hmark : writeMark st.sector_length fuelM offset
        (write_end_address offset count) with ⟨idxs, done⟩
    cases done <;>
      simp [cc26xx_write, hH, cc26xx_init_allOk e.init st hI, hsec, hloop, hQ,
        cc26xx_quit, mod_two_xor_one, hmark]

/-! ## Claim C2 -/

lemma filter_flatMap {α β : Type} (l : List α) (f : α → List β) (p : β → Bool) :
    (l.flatMap f).filter p = l.flatMap fun a => (f a).filter p := by
  induction l with
  | nil => rfl
  | cons a t ih => simp [List.flatMap_cons, List.filter_append, ih]

lemma filter_stale (st : BankState) :
    (stale_free_evs st).filter isPingPong = [] := by
  unfold stale_free_evs
  split <;> rfl

/-- C2: on the all-success path, the handshake trace (command-record
posts and wait-for-done calls) of both the sector-range erase and the
byte-range program orchestrator is exactly `roundTrace N`: round `i`
posts to slot `i % 2`, then waits on the other slot (the slot of round
`i - 1`), and one extra trailing wait lands on the slot just posted,
`(N - 1) % 2`.  For erase `N = last + 1 - first`; for write `N` is the
number of chunks `⌈count / sector_length⌉`. -/
theorem claim_C2 (e : OrchEnv) (st : BankState)
    (first last offset count fuelM : Nat)
    (hH : e.halted = true) (hI : e.init.allOk)
    (hW : ∀ n, e.write_res n = ERROR_OK) (hQ : ∀ n, e.wait_res n = ERROR_OK)
    (hKA : ∀ n, e.write_ka n = false)
    (hsec : st.sectors = none) (hfl : first ≤ last)
    (hnd : ¬ (st.bank_number = 0 ∧ first = 0 ∧ last = st.num_sectors - 1))
    (hL : 1 ≤ st.sector_length) (hc : 1 ≤ count) :
    (1 ≤ last + 1 - first ∧
      (cc26xx_erase e st first last).evs.filter isPingPong =
        roundTrace (last + 1 - first)) ∧
    (1 ≤ nchunks st.sector_length count ∧
      ∃ out, cc26xx_write e st offset count fuelM = some out ∧
        out.evs.filter isPingPong =
          roundTrace (nchunks st.sector_length count)) := by
  have hN : 1 ≤ last + 1 - first := by omega
  have hNC : 1 ≤ nchunks st.sector_length count := by
    unfold nchunks
    rw [Nat.le_div_iff_mul_le (by omega)]
    omega
  constructor
  · refine ⟨hN, ?_⟩
    rw [cc26xx_erase_ok e st first last hH hI hW hQ hnd]
    rw [roundTrace]
    have hw2 : (last + 1 - first + 1) % 2 = (last + 1 - first - 1) % 2 := by
      omega
    simp [List.filter_append, filter_flatMap, filter_stale, isPingPong,
      apply_ite (List.filter isPingPong), hw2]
  · refine ⟨hNC, ?_⟩
    rw [cc26xx_write_ok e st offset count fuelM hH hI hL hW hQ hKA, hsec]
    refine ⟨_, rfl, ?_⟩
    rw [roundTrace]
    have hw2 : (nchunks st.sector_length count + 1) % 2 =
        (nchunks st.sector_length count - 1) % 2 := by omega
    simp [List.filter_append, filter_flatMap, filter_stale, isPingPong, hw2]

/-- C2, witness: `erase(1, 2)` on the table-less five-sector bank gives
two rounds, and a `write` of one-and-a-half sector lengths gives two
chunks; both traces are `roundTrace 2`. -/
theorem claim_C2_witness :
    (1 ≤ 2 + 1 - 1 ∧
      (cc26xx_erase envAllOk bankNoTable 1 2).evs.filter isPingPong =
        roundTrace (2 + 1 - 1)) ∧
    (1 ≤ nchunks bankNoTable.sector_length 0x1800 ∧
      ∃ out, cc26xx_write envAllOk bankNoTable 0 0x1800 0 = some out ∧
        out.evs.filter isPingPong =
          roundTrace (nchunks bankNoTable.sector_length 0x1800)) :=
  claim_C2 envAllOk bankNoTable 1 2 0 0x1800 0 rfl ⟨rfl, rfl, rfl, rfl⟩
    (fun _ => rfl) (fun _ => rfl) (fun _ => rfl) rfl (by decide) (by decide)
    (by decide) (by decide)

/-! ## Marking-loop characterizations -/

lemma writeMark_done (L : Nat) :
    ∀ (fuel off e : Nat), e < off → writeMark L fuel off e = ([], true) := by
  intro fuel
  cases fuel with
  | zero =>
    intro off e h
    simp [writeMark, h]
  | succ fuel =>
    intro off e h
    rw [writeMark, if_neg (by omega)]

/-- On a non-wrapping run (`off ≤ e`, `e + L < 2^32`) with enough fuel,
the marking loop terminates and marks exactly the arithmetic progression
`off/L, off/L + 1, ..., off/L + (e - off)/L`. -/
lemma writeMark_no_wrap (L : Nat) (hL : 1 ≤ L) :
    ∀ (fuel off e : Nat), off ≤ e → e + L < UINT32_MOD →
      (e - off) / L < fuel →
      writeMark L fuel off e =
        ((List.range ((e - off) / L + 1)).map fun k => off / L + k, true) := by
  intro fuel
  induction fuel with
  | zero =>
    intro off e h1 h2 h3
    exact absurd h3 (Nat.not_lt_zero _)
  | succ fuel ih =>
    intro off e h1 h2 h3
    rw [writeMark, if_pos h1]
    have hmod : (off + L) % UINT32_MOD = off + L :=
      Nat.mod_eq_of_lt (by omega)
    rw [hmod]
    by_cases hstep : off + L ≤ e
    · have hdiv : (e - off) / L = (e - (off + L)) / L + 1 := by
        have e1 : e - off = (e - (off + L)) + L := by omega
        rw [e1, Nat.add_div_right _ (by omega)]
      have hfuel2 : (e - (off + L)) / L < fuel := by omega
      rw [ih (off + L) e hstep h2 hfuel2]
      rw [hdiv]
      refine congrArg (fun x => (x, true)) ?_
      rw [Nat.add_div_right _ (show 0 < L by omega)]
      conv_rhs => rw [map_add_range]
    · rw [writeMark_done L fuel (off + L) e (by omega)]
      have hdiv : (e - off) / L = 0 := Nat.div_eq_of_lt (by omega)
      rw [hdiv]
      rfl

/-- If the loop never exits (`e = 2^32 - 1`), it never terminates,
whatever the fuel: the wrapping `uint32_t` offset can never exceed the
maximal word. -/
lemma writeMark_stuck (L : Nat) :
    ∀ (fuel off : Nat), off < UINT32_MOD →
      (writeMark L fuel off (UINT32_MOD - 1)).2 = false := by
  intro fuel
  induction fuel with
  | zero =>
    intro off h
    simp [writeMark, show ¬ (UINT32_MOD - 1 < off) by omega]
  | succ fuel ih =>
    intro off h
    rw [writeMark, if_pos (by omega)]
    rcases hrec : writeMark L fuel ((off + L) % UINT32_MOD) (UINT32_MOD - 1)
      with ⟨idxs, done⟩
    have := ih ((off + L) % UINT32_MOD) (Nat.mod_lt _ (by norm_num [UINT32_MOD]))
    rw [hrec] at this
    simpa [hrec] using this

/-- In the non-terminating run from offset 0, iteration `n` marks sector
index `n` (as long as `n * L` has not wrapped): the marked indices are
unbounded. -/
lemma writeMark_stuck_mem (L : Nat) (hL : 1 ≤ L) :
    ∀ (n fuel off : Nat), off + n * L < UINT32_MOD → n < fuel →
      (off + n * L) / L ∈ (writeMark L fuel off (UINT32_MOD - 1)).1 := by
  intro n
  induction n with
  | zero =>
    intro fuel off hb hf
    match fuel, hf with
    | fuel + 1, _ =>
      rw [writeMark, if_pos (by omega)]
      rcases writeMark L fuel ((off + L) % UINT32_MOD) (UINT32_MOD - 1)
        with ⟨idxs, done⟩
      simp
  | succ n ih =>
    intro fuel off hb hf
    match fuel, hf with
    | fuel + 1, hf2 =>
      have e1 : (n + 1) * L = n * L + L := by ring
      rw [writeMark, if_pos (by omega)]
      have hmod : (off + L) % UINT32_MOD = off + L :=
        Nat.mod_eq_of_lt (by omega)
      have hmem := ih fuel (off + L) (by omega) (by omega)
      rw [hmod]
      rcases hrec : writeMark L fuel (off + L) (UINT32_MOD - 1)
        with ⟨idxs, done⟩
      rw [hrec] at hmem
      have harg : off + L + n * L = off + (n + 1) * L := by ring_nf
      rw [harg] at hmem
      exact List.mem_cons_of_mem _ hmem

/-- Point lookups through the fold that applies the marking loop's index
list to the sector table. -/
lemma foldl_mark_get (idxs : List Nat) :
    ∀ (l : List FlashSector) (j : Nat),
      (idxs.foldl (fun acc s => modifyAt acc s (setIsErased 0)) l).get? j =
        if j ∈ idxs then (l.get? j).map (setIsErased 0) else l.get? j := by
  induction idxs with
  | nil => intro l j; simp
  | cons a t ih =>
    intro l j
    rw [List.foldl_cons, ih, modifyAt_get]
    by_cases h2 : a = j
    · subst h2
      rw [if_pos rfl, if_pos (List.mem_cons_self a t)]
      by_cases h1 : a ∈ t
      · rw [if_pos h1, Option.map_map]
        refine congrArg (fun f => Option.map f (l.get? a)) ?_
        funext s
        rfl
      · rw [if_neg h1]
    · rw [if_neg h2]
      by_cases h1 : j ∈ t
      · rw [if_pos h1, if_pos (List.mem_cons_of_mem a h1)]
      · rw [if_neg h1,
          if_neg (fun h =>
            (List.mem_cons.mp h).elim (fun hj => h2 hj.symm) h1)]

lemma write_end_address_no_wrap (offset count : Nat) (hc : 1 ≤ count)
    (hlt : offset + count ≤ UINT32_MOD) :
    write_end_address offset count = offset + count - 1 := by
  have hM : UINT32_MOD = 4294967296 := rfl
  unfold write_end_address
  rw [hM] at hlt ⊢
  omega

/-- C4 amended: after a successful in-bounds `write(buf, offset, count)`
(`count ≥ 1`), exactly the sectors `offset/L + k` for
`0 ≤ k ≤ (count-1)/L` are marked not-erased (`L` the sector length) and
every other sector of the bank reads unknown.  When `offset` is
sector-aligned these are precisely the sectors overlapping
`[offset, offset+count)`; an unaligned write can leave the last
overlapping sector unmarked. -/
theorem claim_C4_amended (e : OrchEnv) (st : BankState) (l : List FlashSector)
    (offset count fuelM : Nat)
    (hH : e.halted = true) (hI : e.init.allOk)
    (hW : ∀ n, e.write_res n = ERROR_OK) (hQ : ∀ n, e.wait_res n = ERROR_OK)
    (hKA : ∀ n, e.write_ka n = false)
    (hsec : st.sectors = some l) (hlen : l.length = st.num_sectors)
    (hL : 1 ≤ st.sector_length) (hc : 1 ≤ count)
    (hbound : offset + count ≤ st.num_sectors * st.sector_length)
    (hmod : st.num_sectors * st.sector_length + st.sector_length ≤ UINT32_MOD)
    (hfuel : count ≤ fuelM) :
    ∃ out, cc26xx_write e st offset count fuelM = some out ∧
      out.retval = ERROR_OK ∧
      ∀ i, i < st.num_sectors →
        getErased out.st i =
          some (if offset / st.sector_length ≤ i ∧
              i ≤ offset / st.sector_length + (count - 1) / st.sector_length
            then 0 else -1) := by
  have hend := write_end_address_no_wrap offset count hc (by omega)
  have hdiff : write_end_address offset count - offset = count - 1 := by omega
  have hmark := writeMark_no_wrap st.sector_length hL fuelM offset
    (write_end_address offset count) (by omega)
    (by omega)
    (by
      rw [hdiff]
      calc (count - 1) / st.sector_length ≤ count - 1 := Nat.div_le_self _ _
        _ < fuelM := by omega)
  rw [hdiff] at hmark
  rw [cc26xx_write_ok e st offset count fuelM hH hI hL hW hQ hKA]
  rw [hsec, hmark]
  refine ⟨_, rfl, rfl, fun i hi => ?_⟩
  simp only [getErased, Option.some_bind]
  rw [foldl_mark_get]
  have hmem : (i ∈ (List.range ((count - 1) / st.sector_length + 1)).map
      fun k => offset / st.sector_length + k) ↔
      (offset / st.sector_length ≤ i ∧
       i ≤ offset / st.sector_length + (count - 1) / st.sector_length) := by
    simp only [List.mem_map, List.mem_range]
    constructor
    · rintro ⟨k, hk, rfl⟩
      omega
    · rintro ⟨hk1, hk2⟩
      exact ⟨i - offset / st.sector_length, by omega, by omega⟩
  by_cases hin : offset / st.sector_length ≤ i ∧
      i ≤ offset / st.sector_length + (count - 1) / st.sector_length
  · rw [if_pos (hmem.mpr hin), if_pos hin]
    rw [markRange_get, if_pos (by omega)]
    rw [List.get?_eq_get (show i < l.length by omega)]
    simp [setIsErased]
  · rw [if_neg (fun h => hin (hmem.mp h)), if_neg hin]
    rw [markRange_get, if_pos (by omega)]
    rw [List.get?_eq_get (show i < l.length by omega)]
    simp [setIsErased]

/-- C4 amended, witness: `write(buf, 0x0fff, 2)` on the two-sector bank
marks exactly sector 0 (`0x0fff / 0x1000 = 0`, `(2-1)/0x1000 = 0`). -/
theorem claim_C4_amended_witness :
    ∃ out, cc26xx_write envAllOk bank2 0x0fff 2 4 = some out ∧
      out.retval = ERROR_OK ∧
      ∀ i, i < bank2.num_sectors →
        getErased out.st i =
          some (if 0x0fff / bank2.sector_length ≤ i ∧
              i ≤ 0x0fff / bank2.sector_length + (2 - 1) / bank2.sector_length
            then 0 else -1) :=
  claim_C4_amended envAllOk bank2
    [⟨0, 0x1000, 1, 0⟩, ⟨0x1000, 0x1000, 1, 0⟩] 0x0fff 2 4
    rfl ⟨rfl, rfl, rfl, rfl⟩ (fun _ => rfl) (fun _ => rfl) (fun _ => rfl)
    rfl rfl (by decide) (by decide) (by decide) (by decide) (by decide)

/-! ## Claim C10 -/

/-- C10 counterexample: the claim asserts every `count = 0` call wraps
`end_address` to `2^32 - 1` and makes the marking loop run out of
bounds.  But at `offset = 0x1000, count = 0` the `uint32_t` computation
gives `end_address = 0x0fff`, not `2^32 - 1`, and the marking loop
terminates immediately marking nothing. -/
theorem claim_C10_counterexample :
    write_end_address 0x1000 0 = 0x0fff ∧
    0x0fff ≠ UINT32_MOD - 1 ∧
    writeMark 0x1000 4 0x1000 (write_end_address 0x1000 0) = ([], true) := by
  decide

/-- C10 amended: `end_address` is `offset + count - 1` in `uint32_t` with
no `count = 0` guard.  For `count ≥ 1` with `offset + count` within the
bank, every index the marking loop produces is below `num_sectors`.  A
call with `count = 0` and `offset = 0` wraps `end_address` to
`2^32 - 1`; there the marking loop never terminates and its indices are
not bounded by the table size (index `n` itself is marked, given fuel to
reach it).  A call with `count = 0` and `offset ≥ 1` instead sets
`end_address = offset - 1` and the loop marks nothing (see the
counterexample). -/
theorem claim_C10_amended (L n offset count fuelM : Nat)
    (hL : 1 ≤ L) (hc : 1 ≤ count) (hbound : offset + count ≤ n * L)
    (hmod : n * L + L ≤ UINT32_MOD) (hfuel : count ≤ fuelM) :
    (∀ j ∈ (writeMark L fuelM offset (write_end_address offset count)).1,
      j < n) ∧
    write_end_address 0 0 = UINT32_MOD - 1 ∧
    (∀ fuel, (writeMark L fuel 0 (write_end_address 0 0)).2 = false) ∧
    (n < fuelM → n ∈ (writeMark L fuelM 0 (write_end_address 0 0)).1) := by
  have hM : UINT32_MOD = 4294967296 := rfl
  have hwrap : write_end_address 0 0 = UINT32_MOD - 1 := by
    unfold write_end_address
    rw [hM]
  have hend := write_end_address_no_wrap offset count hc (by omega)
  have hn1 : 1 ≤ n := by
    by_contra h
    have : n = 0 := by omega
    subst this
    simp at hbound
    omega
  refine ⟨?_, hwrap, ?_, ?_⟩
  · intro j hj
    have hdiff : write_end_address offset count - offset = count - 1 := by
      omega
    have hmark := writeMark_no_wrap L hL fuelM offset
      (write_end_address offset count) (by omega) (by omega)
      (by
        rw [hdiff]
        calc (count - 1) / L ≤ count - 1 := Nat.div_le_self _ _
          _ < fuelM := by omega)
    rw [hmark, hdiff] at hj
    simp only [List.mem_map, List.mem_range] at hj
    obtain ⟨k, hk, rfl⟩ := hj
    have h1 : (offset / L + (count - 1) / L) * L ≤ offset + (count - 1) := by
      rw [Nat.add_mul]
      exact Nat.add_le_add (Nat.div_mul_le_self _ _) (Nat.div_mul_le_self _ _)
    have h2 : offset + (count - 1) < n * L := by omega
    have h4 : offset / L + (count - 1) / L < n :=
      Nat.lt_of_mul_lt_mul_right (lt_of_le_of_lt h1 h2)
    omega
  · intro fuel
    rw [hwrap]
    exact writeMark_stuck L fuel 0 (by omega)
  · intro hnf
    rw [hwrap]
    have := writeMark_stuck_mem L hL n fuelM 0 (by omega) hnf
    have hdivn : (0 + n * L) / L = n := by
      rw [Nat.zero_add, Nat.mul_div_cancel n (by omega : 0 < L)]
    rw [hdivn] at this
    exact this

/-- C10 amended, witness: a 2-sector bank with 4 KiB sectors and
`write(buf, 0x0fff, 2)`; and the `count = 0, offset = 0` wrap with the
out-of-range index 2 marked. -/
theorem claim_C10_amended_witness :
    (∀ j ∈ (writeMark 0x1000 4 0x0fff (write_end_address 0x0fff 2)).1,
      j < 2) ∧
    write_end_address 0 0 = UINT32_MOD - 1 ∧
    (∀ fuel, (writeMark 0x1000 fuel 0 (write_end_address 0 0)).2 = false) ∧
    (2 < 4 → 2 ∈ (writeMark 0x1000 4 0 (write_end_address 0 0)).1) :=
  claim_C10_amended 0x1000 2 0x0fff 2 4 (by decide) (by decide) (by decide)
    (by decide) (by decide)

/-! ## Claim C7 -/

/-- C7: device-identity resolution is a pure total function — every
identity-word/user-configuration/size-code triple yields a device type,
an SRAM size and a sector length drawn from the fixed decode tables,
with no failure — and any identity word whose masked value matches no
known family code falls back silently to the agama decode (device
subtype then chosen by the `USER_ID_CC13_MASK` bit of the
user-configuration word, SRAM size and sector length by the agama
tables). -/
theorem claim_C7 (icepick_id user_id size_code : Nat)
    (hunk : icepick_id &&& ICEPICK_ID_MASK ≠ CC26X0_ICEPICK_ID ∧
      icepick_id &&& ICEPICK_ID_MASK ≠ CC26X1_ICEPICK_ID ∧
      icepick_id &&& ICEPICK_ID_MASK ≠ CC13X0_ICEPICK_ID ∧
      icepick_id &&& ICEPICK_ID_MASK ≠ CC13X2_CC26X2_ICEPICK_ID) :
    (∀ a b c : Nat,
      cc26xx_device_type a b ∈
        [CC26X0_TYPE, CC26X1_TYPE, CC13X0_TYPE, CC13X2_TYPE, CC26X2_TYPE] ∧
      cc26xx_sram_size a c ∈
        [0x800, 0x1000, 0x2000, 0x4000, 0x2800, 0x5000, 0x8000, 0xc000,
         0x10000, 0x14000] ∧
      cc26xx_sector_length a ∈
        [CC26XX_CHAMELEON_SECTOR_LENGTH, CC26XX_AGAMA_SECTOR_LENGTH]) ∧
    cc26xx_device_type icepick_id user_id =
      (if user_id &&& USER_ID_CC13_MASK ≠ 0 then CC13X2_TYPE
       else CC26X2_TYPE) ∧
    cc26xx_sram_size icepick_id size_code =
      cc26xx_sram_size CC13X2_CC26X2_ICEPICK_ID size_code ∧
    cc26xx_sector_length icepick_id = CC26XX_AGAMA_SECTOR_LENGTH := by
  obtain ⟨hu1, hu2, hu3, hu4⟩ := hunk
  refine ⟨?_, ?_, ?_, ?_⟩
  · intro a b c
    refine ⟨?_, ?_, ?_⟩
    · simp only [cc26xx_device_type]
      split_ifs <;> decide
    · simp only [cc26xx_sram_size]
      split_ifs <;> decide
    · simp only [cc26xx_sector_length]
      split_ifs <;> decide
  · simp only [cc26xx_device_type]
    rw [if_neg hu1, if_neg hu2, if_neg hu3]
  · simp only [cc26xx_sram_size]
    rw [if_neg (by simp only [not_or]; exact ⟨hu1, hu2, hu3⟩)]
    conv_rhs => rw [if_neg (by decide)]
  · simp only [cc26xx_sector_length]
    rw [if_neg (by simp only [not_or]; exact ⟨hu1, hu2, hu3⟩)]

/-- C7, witness: the spec's `0xb900_0477` identity word matches no known
family code and resolves through the agama fallback. -/
theorem claim_C7_witness :
    (∀ a b c : Nat,
      cc26xx_device_type a b ∈
        [CC26X0_TYPE, CC26X1_TYPE, CC13X0_TYPE, CC13X2_TYPE, CC26X2_TYPE] ∧
      cc26xx_sram_size a c ∈
        [0x800, 0x1000, 0x2000, 0x4000, 0x2800, 0x5000, 0x8000, 0xc000,
         0x10000, 0x14000] ∧
      cc26xx_sector_length a ∈
        [CC26XX_CHAMELEON_SECTOR_LENGTH, CC26XX_AGAMA_SECTOR_LENGTH]) ∧
    cc26xx_device_type 0xb9000477 0 =
      (if 0 &&& USER_ID_CC13_MASK ≠ 0 then CC13X2_TYPE else CC26X2_TYPE) ∧
    cc26xx_sram_size 0xb9000477 2 =
      cc26xx_sram_size CC13X2_CC26X2_ICEPICK_ID 2 ∧
    cc26xx_sector_length 0xb9000477 = CC26XX_AGAMA_SECTOR_LENGTH :=
  claim_C7 0xb9000477 0 2 (by decide)

/-! ## Claim C9 -/

/-- C9: a successful probe builds the sector table from the flash-size
register's low byte capped at `CC26XX_MAX_SECTOR_COUNT`: exactly that
many entries, entry `i` at offset `i * sector_length` with the family's
fixed sector length, erase status unknown, protection clear; and the
identity-derived device type / SRAM size / sector length are stored.  In
particular a flash-size byte of `0x80` yields a 128-entry table, and an
agama-family device with size code 2 resolves SRAM size `0x10000`. -/
theorem claim_C9 (e : ProbeEnv) (st : BankState) (iv uv sv fv : Nat)
    (hH : e.halted = true)
    (h1 : e.icepick_res = Except.ok iv) (h2 : e.user_res = Except.ok uv)
    (h3 : e.sram_res = Except.ok sv) (h4 : e.flash_size_res = Except.ok fv)
    (hm : e.malloc_ok = true) :
    (cc26xx_probe e st).1 = ERROR_OK ∧
    (cc26xx_probe e st).2.num_sectors =
      (if CC26XX_MAX_SECTOR_COUNT < (fv &&& 0xff) then CC26XX_MAX_SECTOR_COUNT
       else fv &&& 0xff) ∧
    (cc26xx_probe e st).2.sector_length = cc26xx_sector_length iv ∧
    (cc26xx_probe e st).2.sram_size = cc26xx_sram_size iv sv ∧
    (cc26xx_probe e st).2.device_type = cc26xx_device_type iv uv ∧
    (cc26xx_probe e st).2.base = CC26XX_FLASH_BASE_ADDR ∧
    (cc26xx_probe e st).2.probed = true ∧
    (cc26xx_probe e st).2.sectors =
      some ((List.range (cc26xx_probe e st).2.num_sectors).map fun i =>
        ⟨i * cc26xx_sector_length iv, cc26xx_sector_length iv, -1, 0⟩) ∧
    (fv &&& 0xff = 0x80 →
      (cc26xx_probe e st).2.sectors.map List.length = some 128) ∧
    cc26xx_sram_size 0xb9000477 2 = 0x10000 := by
  have hred : cc26xx_probe e st =
      (ERROR_OK,
       { st with
          icepick_id := iv, user_id := uv,
          device_type := cc26xx_device_type iv uv,
          sram_size := cc26xx_sram_size iv sv,
          algo_family := some (decide (¬ (iv &&& ICEPICK_ID_MASK = CC26X0_ICEPICK_ID ∨
            iv &&& ICEPICK_ID_MASK = CC26X1_ICEPICK_ID ∨
            iv &&& ICEPICK_ID_MASK = CC13X0_ICEPICK_ID))),
          base := CC26XX_FLASH_BASE_ADDR,
          num_sectors := if CC26XX_MAX_SECTOR_COUNT < (fv &&& 0xff)
            then CC26XX_MAX_SECTOR_COUNT else fv &&& 0xff,
          size := (if CC26XX_MAX_SECTOR_COUNT < (fv &&& 0xff)
            then CC26XX_MAX_SECTOR_COUNT else fv &&& 0xff) *
              cc26xx_sector_length iv,
          sector_length := cc26xx_sector_length iv,
          sectors := some ((List.range (if CC26XX_MAX_SECTOR_COUNT < (fv &&& 0xff)
            then CC26XX_MAX_SECTOR_COUNT else fv &&& 0xff)).map fun i =>
              ⟨i * cc26xx_sector_length iv, cc26xx_sector_length iv, -1, 0⟩),
          probed := true }) := by
    simp [cc26xx_probe, hH, h1, h2, h3, h4, hm]
  rw [hred]
  refine ⟨rfl, rfl, rfl, rfl, rfl, rfl, rfl, rfl, ?_, by decide⟩
  intro hbyte
  rw [hbyte]
  simp [CC26XX_MAX_SECTOR_COUNT]

/-- C9, witness: the spec scenario — identity `0xb900_0477`, size code
2, flash-size byte `0x80` — yields a successful probe with a 128-entry
table of 8 KiB sectors and SRAM size `0x10000`. -/
theorem claim_C9_witness :
    (cc26xx_probe probeEnvScenario bankNoTable).1 = ERROR_OK ∧
    (cc26xx_probe probeEnvScenario bankNoTable).2.num_sectors =
      (if CC26XX_MAX_SECTOR_COUNT < (0x80 &&& 0xff) then CC26XX_MAX_SECTOR_COUNT
       else 0x80 &&& 0xff) ∧
    (cc26xx_probe probeEnvScenario bankNoTable).2.sector_length =
      cc26xx_sector_length 0xb9000477 ∧
    (cc26xx_probe probeEnvScenario bankNoTable).2.sram_size =
      cc26xx_sram_size 0xb9000477 2 ∧
    (cc26xx_probe probeEnvScenario bankNoTable).2.device_type =
      cc26xx_device_type 0xb9000477 0 ∧
    (cc26xx_probe probeEnvScenario bankNoTable).2.base =
      CC26XX_FLASH_BASE_ADDR ∧
    (cc26xx_probe probeEnvScenario bankNoTable).2.probed = true ∧
    (cc26xx_probe probeEnvScenario bankNoTable).2.sectors =
      some ((List.range
        (cc26xx_probe probeEnvScenario bankNoTable).2.num_sectors).map fun i =>
          ⟨i * cc26xx_sector_length 0xb9000477,
           cc26xx_sector_length 0xb9000477, -1, 0⟩) ∧
    (0x80 &&& 0xff = 0x80 →
      (cc26xx_probe probeEnvScenario bankNoTable).2.sectors.map List.length =
        some 128) ∧
    cc26xx_sram_size 0xb9000477 2 = 0x10000 :=
  claim_C9 probeEnvScenario bankNoTable 0xb9000477 0 2 0x80
    rfl rfl rfl rfl rfl rfl

end Cc26xx
